import Mathlib

/-!
# rubberband-wasm: the C ABI bridge `rubberband_wasm.cpp`

A shallow embedding of the bridge between a caller and the Rubber Band engine.

* The engine (`rubberband/rubberband-c.h`) is an external collaborator; it is a
  parameter of every definition, a record `Engine σ` of functions over an
  arbitrary engine state `σ`.
* The allocator behind `new` and `std::vector::resize` is a parameter too, a
  record `Allocator μ` that grants or refuses each request; a refused request
  is the exception that leaves `rb_create`, which then returns nothing.
* Every call into the engine and every allocation or release of a context is
  appended to a trace, so that "no engine function is called" and "called
  exactly once with these arguments" are statements about the trace.
* `int` and `unsigned int` are `Int` and `Nat`, the `static_cast`s between
  them wrap modulo `2 ^ 32` (`toUInt`, `toInt`).
-/

namespace RubberbandWasm

/-! ## Machine integers -/

/-- The conversion `static_cast<unsigned int>(x)` of an `int`: reduction modulo `2 ^ 32`. -/
def toUInt (x : Int) : Nat := (x % 4294967296).toNat

/-- The conversion `static_cast<int>(u)` of an unsigned value: the low 32 bits of `u`
read as a two's-complement number. -/
def toInt (u : Nat) : Int :=
  if u % 4294967296 < 2147483648 then ((u % 4294967296 : Nat) : Int)
  else ((u % 4294967296 : Nat) : Int) - 4294967296

/-- The values of the C type `int`. -/
def IsInt32 (x : Int) : Prop := -2147483648 ≤ x ∧ x ≤ 2147483647

instance (x : Int) : Decidable (IsInt32 x) := by unfold IsInt32; infer_instance

/-! ## Floating-point values

Only three facts about `float` are used by the bridge: the constants `0.0f` and
`1.0`, the comparison `scale <= 0.0f`, and the exact widening
`static_cast<double>`.  A value is a NaN, an infinity, or `± mant * 2 ^ exp`. -/

/-- The values of `float` (and, after the exact widening, of `double`). -/
inductive CFloat where
  | nan : CFloat
  | inf (neg : Bool) : CFloat
  | finite (neg : Bool) (mant : Nat) (exp : Int) : CFloat
  deriving DecidableEq, Repr

namespace CFloat

/-- The literal `0.0f`. -/
def zero : CFloat := finite false 0 0

/-- The literal `1.0`. -/
def one : CFloat := finite false 1 0

/-- The comparison `x <= 0.0f`: false on NaN, true on negative values and on both zeros. -/
def leZero : CFloat → Bool
  | nan => false
  | inf neg => neg
  | finite neg mant _ => neg || mant == 0

/-- The comparison `x > 0.0f`: false on NaN, true on `+inf` and on positive finite values. -/
def gtZero : CFloat → Bool
  | nan => false
  | inf neg => !neg
  | finite neg mant _ => !neg && mant != 0

end CFloat

/-! ## Addresses -/

/-- The storage of a channel buffer of a context: `input c` is the storage of
`inBuffers[c]`, `output c` the storage of `outBuffers[c]`. -/
inductive Loc where
  | input (c : Nat) : Loc
  | output (c : Nat) : Loc
  deriving DecidableEq, Repr

/-- A `float *`: `none` is `nullptr`. -/
abbrev Ptr := Option Loc

/-- The pointer `v.data()` for the vector `v` stored at `l`: the address of its storage,
and `nullptr` for a vector that holds no element. -/
def vecData (l : Loc) (v : List CFloat) : Ptr :=
  if v.length = 0 then none else some l

/-- The vector after `v.resize(n, x)` (and `v.resize(n)` with the value-initialised `x`). -/
def vecResize {α : Type} (v : List α) (n : Nat) (x : α) : List α :=
  v.take n ++ List.replicate (n - v.length) x

/-! ## The allocator -/

/-- The requests `rb_create` makes to the allocator. -/
inductive AllocRequest where
  /-- The object of `new RBContext()`. -/
  | context : AllocRequest
  /-- The storage of a `std::vector<std::vector<float>>` of `entries` vectors. -/
  | bufferTable (entries : Nat) : AllocRequest
  /-- The storage of a `std::vector<float *>` of `entries` pointers. -/
  | pointerTable (entries : Nat) : AllocRequest
  /-- The storage of a `std::vector<float>` of `count` samples. -/
  | samples (count : Nat) : AllocRequest
  deriving DecidableEq, Repr

/-- The allocator, over a heap state `μ`: a request is granted, with the heap after
it, or refused (`std::bad_alloc`, `std::length_error`). -/
structure Allocator (μ : Type) where
  allocate : μ → AllocRequest → Option μ

/-- How a call of `rb_create` ends: it returns, or an exception of the allocator
leaves it (nothing in `rb_create` catches one) and no context is returned. -/
inductive Completion where
  | returned : Completion
  | threw : Completion
  deriving DecidableEq, Repr

/-! ## The engine -/

/-- The option flags `rb_create` passes to `rubberband_new`. -/
inductive RubberBandOption where
  | RubberBandOptionProcessOffline
  | RubberBandOptionEngineFiner
  | RubberBandOptionPitchHighQuality
  | RubberBandOptionChannelsTogether
  deriving DecidableEq, Repr

/-- The functions of `rubberband-c.h` the bridge calls, over an engine state `σ`.
Every function may change the engine state.  `study` and `process` receive what
the input pointer table points to; `retrieve` yields, per channel, the samples it
stores through the output pointer table, and the count it reports. -/
structure Engine (σ : Type) where
  rubberband_new : Nat → Nat → List RubberBandOption → CFloat → CFloat → Option σ
  rubberband_set_max_process_size : σ → Nat → σ
  rubberband_get_process_size_limit : σ → σ × Nat
  rubberband_reset : σ → σ
  rubberband_set_pitch_scale : σ → CFloat → σ
  rubberband_set_expected_input_duration : σ → Nat → σ
  rubberband_get_start_delay : σ → σ × Nat
  rubberband_study : σ → List (List CFloat) → Nat → Bool → σ
  rubberband_calculate_stretch : σ → σ
  rubberband_process : σ → List (List CFloat) → Nat → Bool → σ
  rubberband_available : σ → σ × Int
  rubberband_retrieve : σ → Nat → σ × List (List CFloat) × Nat

/-- What the bridge does to the outside: allocations and releases of contexts and
calls into the engine, with the arguments passed. -/
inductive Event where
  | new_context : Event
  | delete_context : Event
  | rubberband_new (sampleRate channels : Nat) (options : List RubberBandOption)
      (initialTimeScale initialPitchScale : CFloat) : Event
  | rubberband_delete : Event
  | rubberband_set_max_process_size (samples : Nat) : Event
  | rubberband_get_process_size_limit : Event
  | rubberband_reset : Event
  | rubberband_set_pitch_scale (scale : CFloat) : Event
  | rubberband_set_expected_input_duration (samples : Nat) : Event
  | rubberband_get_start_delay : Event
  | rubberband_study (input : List Ptr) (samples : Nat) (final : Bool) : Event
  | rubberband_calculate_stretch : Event
  | rubberband_process (input : List Ptr) (samples : Nat) (final : Bool) : Event
  | rubberband_available : Event
  | rubberband_retrieve (output : List Ptr) (samples : Nat) : Event
  deriving DecidableEq, Repr

/-- The events so far, oldest first. -/
abbrev Trace := List Event

/-! ## The context -/

/-- The `struct RBContext`.  `state` holds the engine state behind the handle:
`none` is the null handle. -/
structure RBContext (σ : Type) where
  state : Option σ
  channels : Nat
  chunkFrames : Nat
  maxOutputFrames : Nat
  inBuffers : List (List CFloat)
  outBuffers : List (List CFloat)
  inPtrs : List Ptr
  outPtrs : List Ptr

/-- The value of `new RBContext()`: the default member initialisers. -/
def RBContext.fresh (σ : Type) : RBContext σ where
  state := none
  channels := 0
  chunkFrames := 0
  maxOutputFrames := 0
  inBuffers := []
  outBuffers := []
  inPtrs := []
  outPtrs := []

/-- What a bridge function leaves behind: its return value, the context behind
the pointer it was given (`none` for the null pointer) and the trace.  For
`rb_create` the context is the one behind the pointer it returns, and the value
says whether it returned at all. -/
structure Outcome (σ : Type) (α : Type) where
  ret : α
  ctx : Option (RBContext σ)
  trace : Trace

/-- The options of `rb_create`, the operands of its bitwise or. -/
def createOptions : List RubberBandOption :=
  [RubberBandOption.RubberBandOptionProcessOffline,
   RubberBandOption.RubberBandOptionEngineFiner,
   RubberBandOption.RubberBandOptionPitchHighQuality,
   RubberBandOption.RubberBandOptionChannelsTogether]

/-- The body of the loop of `rb_create` for channel `c`, its allocations granted. -/
def createChannel {σ : Type} (ctx : RBContext σ) (c : Nat) : RBContext σ :=
  let inBuffers := ctx.inBuffers.set c (vecResize (ctx.inBuffers.getD c []) ctx.chunkFrames CFloat.zero)
  let outBuffers :=
    ctx.outBuffers.set c (vecResize (ctx.outBuffers.getD c []) ctx.maxOutputFrames CFloat.zero)
  { ctx with
    inBuffers := inBuffers
    outBuffers := outBuffers
    inPtrs := ctx.inPtrs.set c (vecData (Loc.input c) (inBuffers.getD c []))
    outPtrs := ctx.outPtrs.set c (vecData (Loc.output c) (outBuffers.getD c [])) }

/-- One turn of the loop of `rb_create` for channel `c`: the two buffer
allocations, then the body; nothing once an allocation was refused, as the
exception leaves the loop. -/
def createStep {μ σ : Type} (A : Allocator μ) (acc : Option (μ × RBContext σ)) (c : Nat) :
    Option (μ × RBContext σ) :=
  match acc with
  | none => none
  | some (heap, ctx) =>
    match A.allocate heap (AllocRequest.samples ctx.chunkFrames) with
    | none => none
    | some heap =>
      match A.allocate heap (AllocRequest.samples ctx.maxOutputFrames) with
      | none => none
      | some heap => some (heap, createChannel ctx c)

/-- The four `resize` calls on the tables and the loop of `rb_create`: the heap and
the context after them, or nothing when an allocation was refused. -/
def createBuffers {μ σ : Type} (A : Allocator μ) (heap : μ) (ctx : RBContext σ) :
    Option (μ × RBContext σ) :=
  match A.allocate heap (AllocRequest.bufferTable ctx.channels) with
  | none => none
  | some heap =>
    let ctx := { ctx with inBuffers := vecResize ctx.inBuffers ctx.channels [] }
    match A.allocate heap (AllocRequest.bufferTable ctx.channels) with
    | none => none
    | some heap =>
      let ctx := { ctx with outBuffers := vecResize ctx.outBuffers ctx.channels [] }
      match A.allocate heap (AllocRequest.pointerTable ctx.channels) with
      | none => none
      | some heap =>
        let ctx := { ctx with inPtrs := vecResize ctx.inPtrs ctx.channels none }
        match A.allocate heap (AllocRequest.pointerTable ctx.channels) with
        | none => none
        | some heap =>
          let ctx := { ctx with outPtrs := vecResize ctx.outPtrs ctx.channels none }
          (List.range ctx.channels).foldl (createStep A) (some (heap, ctx))

/-- The function `rb_create`, run on the heap `heap` of the allocator `A`. -/
def rb_create {μ σ : Type} (A : Allocator μ) (heap : μ) (E : Engine σ) (tr : Trace)
    (sampleRate channels : Int) : Outcome σ Completion :=
  if sampleRate ≤ 0 ∨ channels ≤ 0 then ⟨Completion.returned, none, tr⟩
  else
    match A.allocate heap AllocRequest.context with
    | none => ⟨Completion.threw, none, tr⟩
    | some heap =>
      let ctx : RBContext σ := RBContext.fresh σ
      let tr := tr ++ [Event.new_context]
      let ctx := { ctx with channels := toUInt channels }
      let tr := tr ++ [Event.rubberband_new (toUInt sampleRate) (toUInt channels) createOptions
        CFloat.one CFloat.one]
      match E.rubberband_new (toUInt sampleRate) (toUInt channels) createOptions
          CFloat.one CFloat.one with
      | none => ⟨Completion.returned, none, tr ++ [Event.delete_context]⟩
      | some s =>
        let ctx := { ctx with state := some s }
        let ctx := { ctx with chunkFrames := 1024 }
        let ctx := { ctx with maxOutputFrames := 8192 }
        let s := E.rubberband_set_max_process_size s ctx.chunkFrames
        let tr := tr ++ [Event.rubberband_set_max_process_size ctx.chunkFrames]
        let limit := E.rubberband_get_process_size_limit s
        let tr := tr ++ [Event.rubberband_get_process_size_limit]
        let ctx := { ctx with state := some limit.1 }
        if limit.2 = 0 then
          ⟨Completion.returned, none, tr ++ [Event.rubberband_delete, Event.delete_context]⟩
        else
          match createBuffers A heap ctx with
          | none => ⟨Completion.threw, none, tr⟩
          | some done => ⟨Completion.returned, some done.2, tr⟩

/-! ## Memory seen through the pointer tables -/

/-- The samples a pointer points to in the buffers of the context. -/
def deref {σ : Type} (ctx : RBContext σ) : Ptr → List CFloat
  | none => []
  | some (Loc.input c) => ctx.inBuffers.getD c []
  | some (Loc.output c) => ctx.outBuffers.getD c []

/-- The buffer `buf` after at most `n` samples of `src` were stored from its start. -/
def storeSamples (buf src : List CFloat) (n : Nat) : List CFloat :=
  ((src.take n).take buf.length) ++ buf.drop ((src.take n).take buf.length).length

/-- The context after at most `n` samples of `src` were stored through the pointer `p`. -/
def storeAt {σ : Type} (ctx : RBContext σ) (p : Ptr) (src : List CFloat) (n : Nat) :
    RBContext σ :=
  match p with
  | none => ctx
  | some (Loc.input c) =>
    { ctx with inBuffers := ctx.inBuffers.set c (storeSamples (ctx.inBuffers.getD c []) src n) }
  | some (Loc.output c) =>
    { ctx with outBuffers := ctx.outBuffers.set c (storeSamples (ctx.outBuffers.getD c []) src n) }

/-- The context after the engine stored, for each channel, at most `n` samples of
`data` through the entry of the pointer table `ptrs` for that channel. -/
def writeThrough {σ : Type} (ctx : RBContext σ) (ptrs : List Ptr) (data : List (List CFloat))
    (n : Nat) : RBContext σ :=
  (ptrs.zip data).foldl (fun c pd => storeAt c pd.1 pd.2 n) ctx

/-! ## The bridge functions -/

/-- The function `rb_destroy`. -/
def rb_destroy {σ : Type} (tr : Trace) (ctx : Option (RBContext σ)) : Outcome σ Unit :=
  match ctx with
  | none => ⟨(), none, tr⟩
  | some c =>
    match c.state with
    | none => ⟨(), none, tr ++ [Event.delete_context]⟩
    | some _ => ⟨(), none, tr ++ [Event.rubberband_delete] ++ [Event.delete_context]⟩

/-- The function `rb_get_chunk_size`. -/
def rb_get_chunk_size {σ : Type} (tr : Trace) (ctx : Option (RBContext σ)) : Outcome σ Int :=
  match ctx with
  | none => ⟨0, none, tr⟩
  | some c => ⟨toInt c.chunkFrames, some c, tr⟩

/-- The function `rb_get_max_output_size`. -/
def rb_get_max_output_size {σ : Type} (tr : Trace) (ctx : Option (RBContext σ)) :
    Outcome σ Int :=
  match ctx with
  | none => ⟨0, none, tr⟩
  | some c => ⟨toInt c.maxOutputFrames, some c, tr⟩

/-- The function `rb_reset`. -/
def rb_reset {σ : Type} (E : Engine σ) (tr : Trace) (ctx : Option (RBContext σ)) :
    Outcome σ Unit :=
  match ctx with
  | none => ⟨(), none, tr⟩
  | some c =>
    match c.state with
    | none => ⟨(), some c, tr⟩
    | some s =>
      ⟨(), some { c with state := some (E.rubberband_reset s) }, tr ++ [Event.rubberband_reset]⟩

/-- The function `rb_set_pitch_scale`. -/
def rb_set_pitch_scale {σ : Type} (E : Engine σ) (tr : Trace) (ctx : Option (RBContext σ))
    (scale : CFloat) : Outcome σ Unit :=
  match ctx with
  | none => ⟨(), none, tr⟩
  | some c =>
    match c.state with
    | none => ⟨(), some c, tr⟩
    | some s =>
      if scale.leZero then ⟨(), some c, tr⟩
      else
        ⟨(), some { c with state := some (E.rubberband_set_pitch_scale s scale) },
          tr ++ [Event.rubberband_set_pitch_scale scale]⟩

/-- The function `rb_set_expected_input_duration`. -/
def rb_set_expected_input_duration {σ : Type} (E : Engine σ) (tr : Trace)
    (ctx : Option (RBContext σ)) (samples : Int) : Outcome σ Unit :=
  match ctx with
  | none => ⟨(), none, tr⟩
  | some c =>
    match c.state with
    | none => ⟨(), some c, tr⟩
    | some s =>
      if samples < 0 then ⟨(), some c, tr⟩
      else
        ⟨(), some { c with
            state := some (E.rubberband_set_expected_input_duration s (toUInt samples)) },
          tr ++ [Event.rubberband_set_expected_input_duration (toUInt samples)]⟩

/-- The function `rb_get_start_delay`. -/
def rb_get_start_delay {σ : Type} (E : Engine σ) (tr : Trace) (ctx : Option (RBContext σ)) :
    Outcome σ Int :=
  match ctx with
  | none => ⟨0, none, tr⟩
  | some c =>
    match c.state with
    | none => ⟨0, some c, tr⟩
    | some s =>
      let delay := E.rubberband_get_start_delay s
      ⟨toInt delay.2, some { c with state := some delay.1 },
        tr ++ [Event.rubberband_get_start_delay]⟩

/-- The function `rb_get_input_channel_ptr`.  The subscript `inPtrs[i]` is the entry
`i` of the table, in range whenever the table has `channels` entries. -/
def rb_get_input_channel_ptr {σ : Type} (tr : Trace) (ctx : Option (RBContext σ))
    (channel : Int) : Outcome σ Ptr :=
  match ctx with
  | none => ⟨none, none, tr⟩
  | some c =>
    if channel < 0 ∨ toUInt channel ≥ c.channels then ⟨none, some c, tr⟩
    else ⟨c.inPtrs.getD (toUInt channel) none, some c, tr⟩

/-- The function `rb_get_output_channel_ptr`. -/
def rb_get_output_channel_ptr {σ : Type} (tr : Trace) (ctx : Option (RBContext σ))
    (channel : Int) : Outcome σ Ptr :=
  match ctx with
  | none => ⟨none, none, tr⟩
  | some c =>
    if channel < 0 ∨ toUInt channel ≥ c.channels then ⟨none, some c, tr⟩
    else ⟨c.outPtrs.getD (toUInt channel) none, some c, tr⟩

/-- The function `rb_study`. -/
def rb_study {σ : Type} (E : Engine σ) (tr : Trace) (ctx : Option (RBContext σ))
    (inputFrames final : Int) : Outcome σ Unit :=
  match ctx with
  | none => ⟨(), none, tr⟩
  | some c =>
    match c.state with
    | none => ⟨(), some c, tr⟩
    | some s =>
      if inputFrames < 0 then ⟨(), some c, tr⟩
      else if toUInt inputFrames > c.chunkFrames then ⟨(), some c, tr⟩
      else
        ⟨(), some { c with
            state := some (E.rubberband_study s (c.inPtrs.map (deref c)) (toUInt inputFrames)
              (decide (final ≠ 0))) },
          tr ++ [Event.rubberband_study c.inPtrs (toUInt inputFrames) (decide (final ≠ 0))]⟩

/-- The function `rb_calculate_stretch`. -/
def rb_calculate_stretch {σ : Type} (E : Engine σ) (tr : Trace) (ctx : Option (RBContext σ)) :
    Outcome σ Unit :=
  match ctx with
  | none => ⟨(), none, tr⟩
  | some c =>
    match c.state with
    | none => ⟨(), some c, tr⟩
    | some s =>
      ⟨(), some { c with state := some (E.rubberband_calculate_stretch s) },
        tr ++ [Event.rubberband_calculate_stretch]⟩

/-- The function `rb_process`. -/
def rb_process {σ : Type} (E : Engine σ) (tr : Trace) (ctx : Option (RBContext σ))
    (inputFrames final : Int) : Outcome σ Int :=
  match ctx with
  | none => ⟨0, none, tr⟩
  | some c =>
    match c.state with
    | none => ⟨0, some c, tr⟩
    | some s =>
      if inputFrames < 0 then ⟨0, some c, tr⟩
      else if toUInt inputFrames > c.chunkFrames then ⟨0, some c, tr⟩
      else
        let s := E.rubberband_process s (c.inPtrs.map (deref c)) (toUInt inputFrames)
          (decide (final ≠ 0))
        let tr := tr ++ [Event.rubberband_process c.inPtrs (toUInt inputFrames)
          (decide (final ≠ 0))]
        let avail := E.rubberband_available s
        let tr := tr ++ [Event.rubberband_available]
        let c := { c with state := some avail.1 }
        let available : Int := avail.2
        if available ≤ 0 then ⟨0, some c, tr⟩
        else
          let available : Int :=
            if available > toInt c.maxOutputFrames then toInt c.maxOutputFrames else available
          let got := E.rubberband_retrieve avail.1 (toUInt available)
          let tr := tr ++ [Event.rubberband_retrieve c.outPtrs (toUInt available)]
          let c := { c with state := some got.1 }
          ⟨toInt got.2.2, some (writeThrough c c.outPtrs got.2.1 (toUInt available)), tr⟩

/-! ## Sequences of calls on one context -/

/-- A call of a bridge function other than `rb_create` and `rb_destroy`, with its
arguments other than the context. -/
inductive Call where
  | rb_get_chunk_size : Call
  | rb_get_max_output_size : Call
  | rb_reset : Call
  | rb_set_pitch_scale (scale : CFloat) : Call
  | rb_set_expected_input_duration (samples : Int) : Call
  | rb_get_start_delay : Call
  | rb_get_input_channel_ptr (channel : Int) : Call
  | rb_get_output_channel_ptr (channel : Int) : Call
  | rb_study (inputFrames final : Int) : Call
  | rb_calculate_stretch : Call
  | rb_process (inputFrames final : Int) : Call

/-- The context and the trace after a call, its return value dropped. -/
def Call.run {σ : Type} (E : Engine σ) (tr : Trace) (ctx : Option (RBContext σ)) :
    Call → Option (RBContext σ) × Trace
  | Call.rb_get_chunk_size =>
    ((RubberbandWasm.rb_get_chunk_size tr ctx).ctx, (RubberbandWasm.rb_get_chunk_size tr ctx).trace)
  | Call.rb_get_max_output_size =>
    ((RubberbandWasm.rb_get_max_output_size tr ctx).ctx,
      (RubberbandWasm.rb_get_max_output_size tr ctx).trace)
  | Call.rb_reset => ((RubberbandWasm.rb_reset E tr ctx).ctx, (RubberbandWasm.rb_reset E tr ctx).trace)
  | Call.rb_set_pitch_scale scale =>
    ((RubberbandWasm.rb_set_pitch_scale E tr ctx scale).ctx,
      (RubberbandWasm.rb_set_pitch_scale E tr ctx scale).trace)
  | Call.rb_set_expected_input_duration samples =>
    ((RubberbandWasm.rb_set_expected_input_duration E tr ctx samples).ctx,
      (RubberbandWasm.rb_set_expected_input_duration E tr ctx samples).trace)
  | Call.rb_get_start_delay =>
    ((RubberbandWasm.rb_get_start_delay E tr ctx).ctx,
      (RubberbandWasm.rb_get_start_delay E tr ctx).trace)
  | Call.rb_get_input_channel_ptr channel =>
    ((RubberbandWasm.rb_get_input_channel_ptr tr ctx channel).ctx,
      (RubberbandWasm.rb_get_input_channel_ptr tr ctx channel).trace)
  | Call.rb_get_output_channel_ptr channel =>
    ((RubberbandWasm.rb_get_output_channel_ptr tr ctx channel).ctx,
      (RubberbandWasm.rb_get_output_channel_ptr tr ctx channel).trace)
  | Call.rb_study inputFrames final =>
    ((RubberbandWasm.rb_study E tr ctx inputFrames final).ctx,
      (RubberbandWasm.rb_study E tr ctx inputFrames final).trace)
  | Call.rb_calculate_stretch =>
    ((RubberbandWasm.rb_calculate_stretch E tr ctx).ctx,
      (RubberbandWasm.rb_calculate_stretch E tr ctx).trace)
  | Call.rb_process inputFrames final =>
    ((RubberbandWasm.rb_process E tr ctx inputFrames final).ctx,
      (RubberbandWasm.rb_process E tr ctx inputFrames final).trace)

/-- The context and the trace after a sequence of calls, first call first. -/
def runCalls {σ : Type} (E : Engine σ) :
    List Call → Trace → Option (RBContext σ) → Option (RBContext σ) × Trace
  | [], tr, ctx => (ctx, tr)
  | call :: calls, tr, ctx => runCalls E calls (call.run E tr ctx).2 (call.run E tr ctx).1

/-! ## An engine and an allocator to run the bridge on -/

/-- The state of the engine below: the channel count and the frames not yet retrieved. -/
structure DemoState where
  channels : Nat
  buffered : Nat
  deriving DecidableEq, Repr

/-- An engine that stretches sixteenfold: it hands back, as silence, sixteen frames
for each frame it was given, and never reports more frames than it was asked for. -/
def demoEngine : Engine DemoState where
  rubberband_new := fun _ channels _ _ _ => some ⟨channels, 0⟩
  rubberband_set_max_process_size := fun s _ => s
  rubberband_get_process_size_limit := fun s => (s, 1024)
  rubberband_reset := fun s => ⟨s.channels, 0⟩
  rubberband_set_pitch_scale := fun s _ => s
  rubberband_set_expected_input_duration := fun s _ => s
  rubberband_get_start_delay := fun s => (s, 0)
  rubberband_study := fun s _ _ _ => s
  rubberband_calculate_stretch := fun s => s
  rubberband_process := fun s _ n _ => ⟨s.channels, s.buffered + 16 * n⟩
  rubberband_available := fun s => (s, (s.buffered : Int))
  rubberband_retrieve := fun s n =>
    (⟨s.channels, s.buffered - min s.buffered n⟩,
      List.replicate s.channels (List.replicate (min s.buffered n) CFloat.zero),
      min s.buffered n)

/-- The bytes a request takes on wasm32, where `unsigned int`, `float` and pointers
take 4 bytes and a `std::vector` takes three pointers. -/
def wasm32Bytes : AllocRequest → Nat
  | AllocRequest.context => 64
  | AllocRequest.bufferTable entries => 12 * entries
  | AllocRequest.pointerTable entries => 4 * entries
  | AllocRequest.samples count => 4 * count

/-- An allocator for the 32-bit address space of wasm32: the heap state is the number
of bytes in use, and a request is granted when it fits below `2 ^ 32` bytes. -/
def wasm32Allocator : Allocator Nat where
  allocate := fun used request =>
    if used + wasm32Bytes request ≤ 4294967296 then some (used + wasm32Bytes request)
    else none

/-- The context `rb_create` builds for `channels` channels around the engine state `s`. -/
def createdContext {σ : Type} (s : σ) (channels : Nat) : RBContext σ where
  state := some s
  channels := channels
  chunkFrames := 1024
  maxOutputFrames := 8192
  inBuffers := List.replicate channels (List.replicate 1024 CFloat.zero)
  outBuffers := List.replicate channels (List.replicate 8192 CFloat.zero)
  inPtrs := (List.range channels).map (fun c => some (Loc.input c))
  outPtrs := (List.range channels).map (fun c => some (Loc.output c))

/-- The context inside the loop of `rb_create` once channels `0 .. k - 1` are set up,
for a chunk capacity `a` and an output capacity `b`. -/
def createdUpTo {σ : Type} (s : σ) (n a b k : Nat) : RBContext σ where
  state := some s
  channels := n
  chunkFrames := a
  maxOutputFrames := b
  inBuffers :=
    (List.range k).map (fun _ => List.replicate a CFloat.zero) ++ List.replicate (n - k) []
  outBuffers :=
    (List.range k).map (fun _ => List.replicate b CFloat.zero) ++ List.replicate (n - k) []
  inPtrs := (List.range k).map (fun c => some (Loc.input c)) ++ List.replicate (n - k) none
  outPtrs := (List.range k).map (fun c => some (Loc.output c)) ++ List.replicate (n - k) none

/-! ## Specification vocabulary -/

/-- The engine never reports more retrieved frames than it was asked for. -/
def RetrieveBounded {σ : Type} (E : Engine σ) : Prop :=
  ∀ (s : σ) (n : Nat), (E.rubberband_retrieve s n).2.2 ≤ n

/-- The shape of a live context with `n` channels. -/
structure Shaped {σ : Type} (n : Nat) (ctx : RBContext σ) : Prop where
  state : ctx.state ≠ none
  channels : ctx.channels = n
  chunkFrames : ctx.chunkFrames = 1024
  maxOutputFrames : ctx.maxOutputFrames = 8192
  inCount : ctx.inBuffers.length = n
  outCount : ctx.outBuffers.length = n
  inPtrsCount : ctx.inPtrs.length = n
  outPtrsCount : ctx.outPtrs.length = n
  inLength : ∀ b ∈ ctx.inBuffers, b.length = 1024
  outLength : ∀ b ∈ ctx.outBuffers, b.length = 8192
  inPtr : ∀ i, i < n → ctx.inPtrs.getD i none = some (Loc.input i)
  outPtr : ∀ i, i < n → ctx.outPtrs.getD i none = some (Loc.output i)

/-- What a call leaves fixed in a context: the channel count, both capacities, the
pointer tables, whether the engine handle is null, and the number and the lengths
of the input and of the output buffers. -/
structure Preserved {σ : Type} (c d : RBContext σ) : Prop where
  handle : d.state = none ↔ c.state = none
  channels : d.channels = c.channels
  chunkFrames : d.chunkFrames = c.chunkFrames
  maxOutputFrames : d.maxOutputFrames = c.maxOutputFrames
  inPtrs : d.inPtrs = c.inPtrs
  outPtrs : d.outPtrs = c.outPtrs
  inLengths : d.inBuffers.map List.length = c.inBuffers.map List.length
  outLengths : d.outBuffers.map List.length = c.outBuffers.map List.length

/-- The chunk capacity of the context behind a pointer: the member `chunkFrames`,
and `0` behind the null pointer. -/
def chunkCapacity {σ : Type} : Option (RBContext σ) → Nat
  | none => 0
  | some c => c.chunkFrames

/-- The counts an engine call is given stay within the channel buffers of the
context: `rubberband_study` and `rubberband_process` read no more frames than each
input buffer and each buffer pointed to holds, `rubberband_retrieve` stores at
least one frame and no more than each output buffer and each buffer pointed to holds. -/
def Event.InBounds {σ : Type} (ctx : RBContext σ) : Event → Prop
  | Event.rubberband_study input samples _ =>
    (∀ b ∈ ctx.inBuffers, samples ≤ b.length) ∧ ∀ p ∈ input, samples ≤ (deref ctx p).length
  | Event.rubberband_process input samples _ =>
    (∀ b ∈ ctx.inBuffers, samples ≤ b.length) ∧ ∀ p ∈ input, samples ≤ (deref ctx p).length
  | Event.rubberband_retrieve output samples =>
    1 ≤ samples ∧ (∀ b ∈ ctx.outBuffers, samples ≤ b.length) ∧
      ∀ p ∈ output, samples ≤ (deref ctx p).length
  | _ => True

/-! ## Casts -/

theorem toUInt_eq {x : Int} (h0 : 0 ≤ x) (h1 : x < 4294967296) : (toUInt x : Int) = x := by
  unfold toUInt
  rw [Int.emod_eq_of_lt h0 h1]
  exact Int.toNat_of_nonneg h0

theorem toUInt_toNat {x : Int} (h0 : 0 ≤ x) (h1 : x < 4294967296) : toUInt x = x.toNat := by
  have h := toUInt_eq h0 h1
  omega

theorem toInt_eq {u : Nat} (h : u < 2147483648) : toInt u = (u : Int) := by
  unfold toInt
  have h1 : u % 4294967296 = u := Nat.mod_eq_of_lt (by omega)
  rw [h1, if_pos h]

theorem toInt_1024 : toInt 1024 = 1024 := by decide

theorem toInt_8192 : toInt 8192 = 8192 := by decide

/-! ## Creation -/

theorem range_map_set {α : Type} (f : Nat → α) (d : α) (n k : Nat) (hk : k < n) :
    (((List.range k).map f) ++ List.replicate (n - k) d).set k (f k) =
      ((List.range (k + 1)).map f) ++ List.replicate (n - (k + 1)) d := by
  obtain ⟨m, hm⟩ : ∃ m, n - k = m + 1 := ⟨n - k - 1, by omega⟩
  have hm2 : n - (k + 1) = m := by omega
  rw [hm, hm2, List.range_succ, List.map_append, List.replicate_succ]
  have hlen : ((List.range k).map f).length = k := by simp
  rw [List.set_append_right _ _ (by omega)]
  simp [hlen]

theorem range_map_getD {α : Type} (f : Nat → α) (d e : α) (n k : Nat) (hk : k < n) :
    (((List.range k).map f) ++ List.replicate (n - k) d).getD k e = d := by
  obtain ⟨m, hm⟩ : ∃ m, n - k = m + 1 := ⟨n - k - 1, by omega⟩
  rw [hm, List.getD_eq_getElem?_getD, List.getElem?_append_right (by simp)]
  simp

theorem range_map_getD_lt {α : Type} (f : Nat → α) (l : List α) (e : α) (n k : Nat)
    (hk : k < n) : (((List.range n).map f) ++ l).getD k e = f k := by
  rw [List.getD_eq_getElem?_getD, List.getElem?_append_left (by simpa using hk)]
  simp [hk]

theorem vecResize_nil {α : Type} (n : Nat) (x : α) : vecResize [] n x = List.replicate n x := by
  simp [vecResize]

theorem createChannel_createdUpTo {σ : Type} (s : σ) (n a b k : Nat) (ha : a ≠ 0) (hb : b ≠ 0)
    (hk : k < n) : createChannel (createdUpTo s n a b k) k = createdUpTo s n a b (k + 1) := by
  have hin := range_map_set (fun _ => List.replicate a CFloat.zero) [] n k hk
  have hout := range_map_set (fun _ => List.replicate b CFloat.zero) [] n k hk
  have hip := range_map_set (fun c => some (Loc.input c)) none n k hk
  have hop := range_map_set (fun c => some (Loc.output c)) none n k hk
  have gin := range_map_getD (fun _ => List.replicate a CFloat.zero) [] [] n k hk
  have gout := range_map_getD (fun _ => List.replicate b CFloat.zero) [] [] n k hk
  have gin2 := range_map_getD_lt (fun _ => List.replicate a CFloat.zero)
    (List.replicate (n - (k + 1)) []) [] (k + 1) k (by omega)
  have gout2 := range_map_getD_lt (fun _ => List.replicate b CFloat.zero)
    (List.replicate (n - (k + 1)) []) [] (k + 1) k (by omega)
  simp only [createChannel, createdUpTo, gin, gout, vecResize_nil, hin, hout, gin2, gout2,
    vecData, List.length_replicate, if_neg ha, if_neg hb]
  simp only [createdUpTo] at hip hop
  rw [hip, hop]

theorem foldl_createStep_some {μ σ : Type} (A : Allocator μ) (heap : μ) (s : σ)
    (n a b k : Nat) (ha : a ≠ 0) (hb : b ≠ 0) (hk : k ≤ n) (r : μ × RBContext σ)
    (h : (List.range k).foldl (createStep A) (some (heap, createdUpTo s n a b 0)) = some r) :
    r.2 = createdUpTo s n a b k := by
  induction k generalizing r with
  | zero =>
    simp only [List.range_zero, List.foldl_nil, Option.some.injEq] at h
    rw [← h]
  | succ k ih =>
    rw [List.range_succ, List.foldl_append] at h
    simp only [List.foldl_cons, List.foldl_nil] at h
    cases hf : (List.range k).foldl (createStep A) (some (heap, createdUpTo s n a b 0)) with
    | none =>
      rw [hf] at h
      simp only [createStep] at h
      cases h
    | some r1 =>
      have hr1 := ih (by omega) r1 hf
      rw [hf] at h
      obtain ⟨h1, c1⟩ := r1
      simp only [createStep] at h
      split at h
      · cases h
      · split at h
        · cases h
        · simp only [Option.some.injEq] at h
          rw [← h]
          simp only at hr1 ⊢
          rw [hr1]
          exact createChannel_createdUpTo s n a b k ha hb (by omega)

theorem createdUpTo_start {σ : Type} (s : σ) (n a b : Nat) :
    ({ state := some s, channels := n, chunkFrames := a, maxOutputFrames := b,
       inBuffers := vecResize [] n [], outBuffers := vecResize [] n [],
       inPtrs := vecResize [] n none, outPtrs := vecResize [] n none } : RBContext σ) =
      createdUpTo s n a b 0 := by
  simp [createdUpTo, vecResize_nil]

theorem createdUpTo_full {σ : Type} (s : σ) (n a b : Nat) :
    createdUpTo s n a b n =
      { state := some s, channels := n, chunkFrames := a, maxOutputFrames := b,
        inBuffers := List.replicate n (List.replicate a CFloat.zero),
        outBuffers := List.replicate n (List.replicate b CFloat.zero),
        inPtrs := (List.range n).map (fun c => some (Loc.input c)),
        outPtrs := (List.range n).map (fun c => some (Loc.output c)) } := by
  simp [createdUpTo, List.eq_replicate_iff]

/-- When the table resizes and the loop of `rb_create` come through, the context is
the created one. -/
theorem createBuffers_some {μ σ : Type} (A : Allocator μ) (heap : μ) (s : σ) (n : Nat)
    (r : μ × RBContext σ)
    (h : createBuffers A heap
      ({ state := some s, channels := n, chunkFrames := 1024, maxOutputFrames := 8192,
         inBuffers := [], outBuffers := [], inPtrs := [], outPtrs := [] } : RBContext σ) =
      some r) : r.2 = createdContext s n := by
  simp only [createBuffers] at h
  split at h
  · cases h
  · split at h
    · cases h
    · split at h
      · cases h
      · split at h
        · cases h
        · rw [createdUpTo_start] at h
          rw [foldl_createStep_some A _ s n 1024 8192 n (by omega) (by omega) (le_refl n) r h,
            createdUpTo_full]
          rfl

/-- What a call of `rb_create` that hands out a context has done. -/
theorem rb_create_some {μ σ : Type} (A : Allocator μ) (heap : μ) (E : Engine σ) (tr : Trace)
    (sampleRate channels : Int) (c : RBContext σ)
    (hc : (rb_create A heap E tr sampleRate channels).ctx = some c) :
    0 < sampleRate ∧ 0 < channels ∧
      (rb_create A heap E tr sampleRate channels).ret = Completion.returned ∧
      ∃ s, c = createdContext s (toUInt channels) := by
  by_cases hpos : sampleRate ≤ 0 ∨ channels ≤ 0
  · simp only [rb_create, if_pos hpos] at hc
    cases hc
  · refine ⟨by omega, by omega, ?_⟩
    simp only [rb_create, if_neg hpos, RBContext.fresh] at hc ⊢
    split at hc
    · cases hc
    · split at hc
      · cases hc
      · split at hc
        · cases hc
        · split at hc
          · cases hc
          · rename_i done hdone
            simp only [Option.some.injEq] at hc
            exact ⟨by simp only [*, if_false], _,
              hc.symm.trans (createBuffers_some A _ _ _ done hdone)⟩

/-- What `rb_create` returns when its arguments are positive, the engine built a
state with a non-zero limit, and no allocation was refused. -/
theorem rb_create_returned {μ σ : Type} (A : Allocator μ) (heap : μ) (E : Engine σ)
    (tr : Trace) (sampleRate channels : Int) (hs : 0 < sampleRate) (hc : 0 < channels) (s : σ)
    (hnew : E.rubberband_new (toUInt sampleRate) (toUInt channels) createOptions
      CFloat.one CFloat.one = some s)
    (hlimit : (E.rubberband_get_process_size_limit
      (E.rubberband_set_max_process_size s 1024)).2 ≠ 0)
    (hret : (rb_create A heap E tr sampleRate channels).ret = Completion.returned) :
    (rb_create A heap E tr sampleRate channels).ctx =
      some (createdContext (E.rubberband_get_process_size_limit
        (E.rubberband_set_max_process_size s 1024)).1 (toUInt channels)) := by
  have hpos : ¬ (sampleRate ≤ 0 ∨ channels ≤ 0) := by omega
  simp only [rb_create, if_neg hpos, RBContext.fresh, hnew, if_neg hlimit] at hret ⊢
  cases hheap : A.allocate heap AllocRequest.context with
  | none =>
    rw [hheap] at hret
    cases hret
  | some heap1 =>
    simp only [hheap] at hret ⊢
    cases hdone : createBuffers A heap1
        ({ state := some (E.rubberband_get_process_size_limit
             (E.rubberband_set_max_process_size s 1024)).1,
           channels := toUInt channels, chunkFrames := 1024, maxOutputFrames := 8192,
           inBuffers := [], outBuffers := [], inPtrs := [], outPtrs := [] } : RBContext σ) with
    | none =>
      rw [hdone] at hret
      cases hret
    | some done =>
      exact congrArg some (createBuffers_some A _ _ _ done hdone)

/-! ## What the calls preserve -/

theorem Preserved.refl {σ : Type} (c : RBContext σ) : Preserved c c :=
  ⟨Iff.rfl, rfl, rfl, rfl, rfl, rfl, rfl, rfl⟩

theorem Preserved.trans {σ : Type} {c d e : RBContext σ} (h1 : Preserved c d)
    (h2 : Preserved d e) : Preserved c e :=
  ⟨h2.handle.trans h1.handle, h2.channels.trans h1.channels,
    h2.chunkFrames.trans h1.chunkFrames, h2.maxOutputFrames.trans h1.maxOutputFrames,
    h2.inPtrs.trans h1.inPtrs, h2.outPtrs.trans h1.outPtrs, h2.inLengths.trans h1.inLengths,
    h2.outLengths.trans h1.outLengths⟩

/-- Replacing the engine state by another one preserves the rest. -/
theorem Preserved.setState {σ : Type} (c : RBContext σ) (s t : σ) (h : c.state = some s) :
    Preserved c { c with state := some t } :=
  ⟨by simp [h], rfl, rfl, rfl, rfl, rfl, rfl, rfl⟩

theorem storeSamples_length (buf src : List CFloat) (n : Nat) :
    (storeSamples buf src n).length = buf.length := by
  simp only [storeSamples, List.length_append, List.length_take, List.length_drop]
  omega

theorem map_length_set {α : Type} (l : List (List α)) (i : Nat) (x : List α)
    (h : x.length = (l.getD i []).length) :
    (l.set i x).map List.length = l.map List.length := by
  induction l generalizing i with
  | nil => simp
  | cons a l ih =>
    cases i with
    | zero => simpa using h
    | succ i =>
      simp only [List.set_cons_succ, List.map_cons, List.cons.injEq, true_and]
      exact ih i (by simpa using h)

theorem storeAt_preserved {σ : Type} (c : RBContext σ) (p : Ptr) (src : List CFloat) (n : Nat) :
    Preserved c (storeAt c p src n) := by
  cases p with
  | none => exact Preserved.refl c
  | some l =>
    cases l with
    | input i =>
      exact ⟨Iff.rfl, rfl, rfl, rfl, rfl, rfl,
        map_length_set _ _ _ (storeSamples_length _ _ _), rfl⟩
    | output i =>
      exact ⟨Iff.rfl, rfl, rfl, rfl, rfl, rfl, rfl,
        map_length_set _ _ _ (storeSamples_length _ _ _)⟩

theorem writeThrough_preserved {σ : Type} (c : RBContext σ) (ptrs : List Ptr)
    (data : List (List CFloat)) (n : Nat) : Preserved c (writeThrough c ptrs data n) := by
  unfold writeThrough
  generalize ptrs.zip data = l
  induction l generalizing c with
  | nil => exact Preserved.refl c
  | cons x l ih => exact (storeAt_preserved c x.1 x.2 n).trans (ih _)

theorem writeThrough_inBuffers_length {σ : Type} (c d : RBContext σ) (h : Preserved c d) :
    d.inBuffers.length = c.inBuffers.length ∧ d.outBuffers.length = c.outBuffers.length := by
  have h1 := congrArg List.length h.inLengths
  have h2 := congrArg List.length h.outLengths
  simpa using And.intro h1 h2

theorem mem_length_of_map_eq {l m : List (List CFloat)} (h : m.map List.length = l.map List.length)
    (k : Nat) (hl : ∀ b ∈ l, b.length = k) : ∀ b ∈ m, b.length = k := by
  intro b hb
  have hmem : b.length ∈ m.map List.length := List.mem_map_of_mem _ hb
  rw [h] at hmem
  obtain ⟨b0, hb0, hlen⟩ := List.mem_map.mp hmem
  rw [← hlen]
  exact hl b0 hb0

theorem Shaped.of_preserved {σ : Type} {n : Nat} {c d : RBContext σ} (hc : Shaped n c)
    (h : Preserved c d) : Shaped n d where
  state := fun hd => hc.state (h.handle.mp hd)
  channels := h.channels.trans hc.channels
  chunkFrames := h.chunkFrames.trans hc.chunkFrames
  maxOutputFrames := h.maxOutputFrames.trans hc.maxOutputFrames
  inCount := (writeThrough_inBuffers_length c d h).1.trans hc.inCount
  outCount := (writeThrough_inBuffers_length c d h).2.trans hc.outCount
  inPtrsCount := by rw [h.inPtrs]; exact hc.inPtrsCount
  outPtrsCount := by rw [h.outPtrs]; exact hc.outPtrsCount
  inLength := mem_length_of_map_eq h.inLengths 1024 hc.inLength
  outLength := mem_length_of_map_eq h.outLengths 8192 hc.outLength
  inPtr := by rw [h.inPtrs]; exact hc.inPtr
  outPtr := by rw [h.outPtrs]; exact hc.outPtr

theorem createdContext_shaped {σ : Type} (s : σ) (n : Nat) : Shaped n (createdContext s n) where
  state := show (some s : Option σ) ≠ none from fun h => Option.noConfusion h
  channels := rfl
  chunkFrames := rfl
  maxOutputFrames := rfl
  inCount := List.length_replicate _ _
  outCount := List.length_replicate _ _
  inPtrsCount := by
    show ((List.range n).map (fun c => some (Loc.input c))).length = n
    rw [List.length_map, List.length_range]
  outPtrsCount := by
    show ((List.range n).map (fun c => some (Loc.output c))).length = n
    rw [List.length_map, List.length_range]
  inLength := by
    intro b hb
    rw [(List.mem_replicate.mp hb).2, List.length_replicate]
  outLength := by
    intro b hb
    rw [(List.mem_replicate.mp hb).2, List.length_replicate]
  inPtr := by
    intro i hi
    have h := range_map_getD_lt (fun c => some (Loc.input c)) [] none n i hi
    rw [List.append_nil] at h
    exact h
  outPtr := by
    intro i hi
    have h := range_map_getD_lt (fun c => some (Loc.output c)) [] none n i hi
    rw [List.append_nil] at h
    exact h

theorem rb_get_chunk_size_preserved {σ : Type} (tr : Trace) (c : RBContext σ) :
    ∃ d, (rb_get_chunk_size tr (some c)).ctx = some d ∧ Preserved c d :=
  ⟨c, rfl, Preserved.refl c⟩

theorem rb_get_max_output_size_preserved {σ : Type} (tr : Trace) (c : RBContext σ) :
    ∃ d, (rb_get_max_output_size tr (some c)).ctx = some d ∧ Preserved c d :=
  ⟨c, rfl, Preserved.refl c⟩

theorem rb_reset_preserved {σ : Type} (E : Engine σ) (tr : Trace) (c : RBContext σ) :
    ∃ d, (rb_reset E tr (some c)).ctx = some d ∧ Preserved c d := by
  cases hs : c.state with
  | none => simp only [rb_reset, hs]; exact ⟨c, rfl, Preserved.refl c⟩
  | some s => simp only [rb_reset, hs]; exact ⟨_, rfl, Preserved.setState c s _ hs⟩

theorem rb_set_pitch_scale_preserved {σ : Type} (E : Engine σ) (tr : Trace) (c : RBContext σ)
    (scale : CFloat) :
    ∃ d, (rb_set_pitch_scale E tr (some c) scale).ctx = some d ∧ Preserved c d := by
  cases hs : c.state with
  | none => simp only [rb_set_pitch_scale, hs]; exact ⟨c, rfl, Preserved.refl c⟩
  | some s =>
    simp only [rb_set_pitch_scale, hs]
    split_ifs
    · exact ⟨c, rfl, Preserved.refl c⟩
    · exact ⟨_, rfl, Preserved.setState c s _ hs⟩

theorem rb_set_expected_input_duration_preserved {σ : Type} (E : Engine σ) (tr : Trace)
    (c : RBContext σ) (samples : Int) :
    ∃ d, (rb_set_expected_input_duration E tr (some c) samples).ctx = some d ∧ Preserved c d := by
  cases hs : c.state with
  | none => simp only [rb_set_expected_input_duration, hs]; exact ⟨c, rfl, Preserved.refl c⟩
  | some s =>
    simp only [rb_set_expected_input_duration, hs]
    split_ifs
    · exact ⟨c, rfl, Preserved.refl c⟩
    · exact ⟨_, rfl, Preserved.setState c s _ hs⟩

theorem rb_get_start_delay_preserved {σ : Type} (E : Engine σ) (tr : Trace) (c : RBContext σ) :
    ∃ d, (rb_get_start_delay E tr (some c)).ctx = some d ∧ Preserved c d := by
  cases hs : c.state with
  | none => simp only [rb_get_start_delay, hs]; exact ⟨c, rfl, Preserved.refl c⟩
  | some s => simp only [rb_get_start_delay, hs]; exact ⟨_, rfl, Preserved.setState c s _ hs⟩

theorem rb_get_input_channel_ptr_preserved {σ : Type} (tr : Trace) (c : RBContext σ)
    (channel : Int) :
    ∃ d, (rb_get_input_channel_ptr tr (some c) channel).ctx = some d ∧ Preserved c d := by
  simp only [rb_get_input_channel_ptr]
  split_ifs <;> exact ⟨c, rfl, Preserved.refl c⟩

theorem rb_get_output_channel_ptr_preserved {σ : Type} (tr : Trace) (c : RBContext σ)
    (channel : Int) :
    ∃ d, (rb_get_output_channel_ptr tr (some c) channel).ctx = some d ∧ Preserved c d := by
  simp only [rb_get_output_channel_ptr]
  split_ifs <;> exact ⟨c, rfl, Preserved.refl c⟩

theorem rb_study_preserved {σ : Type} (E : Engine σ) (tr : Trace) (c : RBContext σ)
    (inputFrames final : Int) :
    ∃ d, (rb_study E tr (some c) inputFrames final).ctx = some d ∧ Preserved c d := by
  cases hs : c.state with
  | none => simp only [rb_study, hs]; exact ⟨c, rfl, Preserved.refl c⟩
  | some s =>
    simp only [rb_study, hs]
    split_ifs
    · exact ⟨c, rfl, Preserved.refl c⟩
    · exact ⟨c, rfl, Preserved.refl c⟩
    · exact ⟨_, rfl, Preserved.setState c s _ hs⟩

theorem rb_calculate_stretch_preserved {σ : Type} (E : Engine σ) (tr : Trace)
    (c : RBContext σ) :
    ∃ d, (rb_calculate_stretch E tr (some c)).ctx = some d ∧ Preserved c d := by
  cases hs : c.state with
  | none => simp only [rb_calculate_stretch, hs]; exact ⟨c, rfl, Preserved.refl c⟩
  | some s =>
    simp only [rb_calculate_stretch, hs]
    exact ⟨_, rfl, Preserved.setState c s _ hs⟩

theorem rb_process_preserved {σ : Type} (E : Engine σ) (tr : Trace) (c : RBContext σ)
    (inputFrames final : Int) :
    ∃ d, (rb_process E tr (some c) inputFrames final).ctx = some d ∧ Preserved c d := by
  cases hs : c.state with
  | none => simp only [rb_process, hs]; exact ⟨c, rfl, Preserved.refl c⟩
  | some s =>
    simp only [rb_process, hs]
    split_ifs
    · exact ⟨c, rfl, Preserved.refl c⟩
    · exact ⟨c, rfl, Preserved.refl c⟩
    · exact ⟨_, rfl, Preserved.setState c s _ hs⟩
    · exact ⟨_, rfl, (Preserved.setState c s _ hs).trans (writeThrough_preserved _ _ _ _)⟩
    · exact ⟨_, rfl, (Preserved.setState c s _ hs).trans (writeThrough_preserved _ _ _ _)⟩

/-- Every call other than `rb_create` and `rb_destroy` keeps the context alive and
preserves its frame. -/
theorem run_preserved {σ : Type} (E : Engine σ) (call : Call) (tr : Trace) (c : RBContext σ) :
    ∃ d, (call.run E tr (some c)).1 = some d ∧ Preserved c d := by
  cases call with
  | rb_get_chunk_size => exact rb_get_chunk_size_preserved tr c
  | rb_get_max_output_size => exact rb_get_max_output_size_preserved tr c
  | rb_reset => exact rb_reset_preserved E tr c
  | rb_set_pitch_scale scale => exact rb_set_pitch_scale_preserved E tr c scale
  | rb_set_expected_input_duration samples =>
    exact rb_set_expected_input_duration_preserved E tr c samples
  | rb_get_start_delay => exact rb_get_start_delay_preserved E tr c
  | rb_get_input_channel_ptr channel => exact rb_get_input_channel_ptr_preserved tr c channel
  | rb_get_output_channel_ptr channel => exact rb_get_output_channel_ptr_preserved tr c channel
  | rb_study inputFrames final => exact rb_study_preserved E tr c inputFrames final
  | rb_calculate_stretch => exact rb_calculate_stretch_preserved E tr c
  | rb_process inputFrames final => exact rb_process_preserved E tr c inputFrames final

theorem runCalls_preserved {σ : Type} (E : Engine σ) (calls : List Call) (tr : Trace)
    (c : RBContext σ) : ∃ d, (runCalls E calls tr (some c)).1 = some d ∧ Preserved c d := by
  induction calls generalizing tr c with
  | nil => exact ⟨c, rfl, Preserved.refl c⟩
  | cons call calls ih =>
    obtain ⟨d, hd, hp⟩ := run_preserved E call tr c
    obtain ⟨e, he, hq⟩ := ih (call.run E tr (some c)).2 d
    refine ⟨e, ?_, hp.trans hq⟩
    simp only [runCalls]
    rw [hd]
    exact he

theorem run_none {σ : Type} (E : Engine σ) (call : Call) (tr : Trace) :
    call.run E tr (none : Option (RBContext σ)) = (none, tr) := by
  cases call <;> rfl

theorem runCalls_none {σ : Type} (E : Engine σ) (calls : List Call) (tr : Trace) :
    runCalls E calls tr (none : Option (RBContext σ)) = (none, tr) := by
  induction calls with
  | nil => rfl
  | cons call calls ih => simp only [runCalls, run_none, ih]

/-- A context `rb_create` returns has the shape of a live context. -/
theorem rb_create_shaped {μ σ : Type} (A : Allocator μ) (heap : μ) (E : Engine σ) (tr : Trace)
    (sampleRate channels : Int) (c : RBContext σ)
    (hc : (rb_create A heap E tr sampleRate channels).ctx = some c) :
    0 < sampleRate ∧ 0 < channels ∧ Shaped (toUInt channels) c ∧
      (∀ b ∈ c.inBuffers, b = List.replicate 1024 CFloat.zero) ∧
      (∀ b ∈ c.outBuffers, b = List.replicate 8192 CFloat.zero) := by
  obtain ⟨hs, hch, -, s, hcs⟩ := rb_create_some A heap E tr sampleRate channels c hc
  subst hcs
  refine ⟨hs, hch, createdContext_shaped _ _, ?_, ?_⟩
  · intro b hb
    exact (List.mem_replicate.mp hb).2
  · intro b hb
    exact (List.mem_replicate.mp hb).2

/-- The contexts reached from one `rb_create` returned keep its shape. -/
theorem reachable_shaped {μ σ : Type} (A : Allocator μ) (heap : μ) (E : Engine σ) (tr : Trace) (sampleRate channels : Int)
    (c : RBContext σ) (hc : (rb_create A heap E tr sampleRate channels).ctx = some c)
    (calls : List Call) (tr1 : Trace) :
    ∃ d, (runCalls E calls tr1 (some c)).1 = some d ∧ Preserved c d ∧
      Shaped (toUInt channels) d := by
  obtain ⟨d, hd, hp⟩ := runCalls_preserved E calls tr1 c
  exact ⟨d, hd, hp, (rb_create_shaped A heap E tr sampleRate channels c hc).2.2.1.of_preserved hp⟩

theorem Shaped.deref_inPtrs {σ : Type} {n : Nat} {c : RBContext σ} (h : Shaped n c) :
    ∀ p ∈ c.inPtrs, (deref c p).length = 1024 := by
  intro p hp
  obtain ⟨i, hi, hpi⟩ := List.getElem_of_mem hp
  have hin : i < n := by rw [← h.inPtrsCount]; exact hi
  have hget := h.inPtr i hin
  rw [List.getD_eq_getElem?_getD, List.getElem?_eq_getElem hi, hpi] at hget
  simp only [Option.getD_some] at hget
  subst hget
  have hib : i < c.inBuffers.length := by rw [h.inCount]; exact hin
  simp only [deref, List.getD_eq_getElem?_getD, List.getElem?_eq_getElem hib, Option.getD_some]
  exact h.inLength _ (List.getElem_mem hib)

theorem Shaped.deref_outPtrs {σ : Type} {n : Nat} {c : RBContext σ} (h : Shaped n c) :
    ∀ p ∈ c.outPtrs, (deref c p).length = 8192 := by
  intro p hp
  obtain ⟨i, hi, hpi⟩ := List.getElem_of_mem hp
  have hin : i < n := by rw [← h.outPtrsCount]; exact hi
  have hget := h.outPtr i hin
  rw [List.getD_eq_getElem?_getD, List.getElem?_eq_getElem hi, hpi] at hget
  simp only [Option.getD_some] at hget
  subst hget
  have hib : i < c.outBuffers.length := by rw [h.outCount]; exact hin
  simp only [deref, List.getD_eq_getElem?_getD, List.getElem?_eq_getElem hib, Option.getD_some]
  exact h.outLength _ (List.getElem_mem hib)

/-- The count `rb_process` asks `rubberband_retrieve` for when `a > 0` frames are
available and the output capacity is `8192`. -/
theorem clamp_count (a : Int) (ha : 0 < a) :
    toUInt (if a > toInt 8192 then toInt 8192 else a) = (min a 8192).toNat ∧
      1 ≤ (min a 8192).toNat ∧ (min a 8192).toNat ≤ 8192 := by
  rw [toInt_8192]
  by_cases h : a > 8192
  · rw [if_pos h, min_eq_right (by omega)]
    decide
  · rw [if_neg h, min_eq_left (by omega), toUInt_toNat (by omega) (by omega)]
    omega

/-- What `rb_process` does on a live context, for an accepted frame count. -/
theorem rb_process_shaped {σ : Type} (E : Engine σ) (tr : Trace) (n : Nat) (c : RBContext σ)
    (hc : Shaped n c) (s : σ) (hs : c.state = some s) (inputFrames final : Int)
    (h0 : 0 ≤ inputFrames) (h1 : inputFrames ≤ 1024) :
    rb_process E tr (some c) inputFrames final =
      if (E.rubberband_available (E.rubberband_process s (c.inPtrs.map (deref c))
          inputFrames.toNat (decide (final ≠ 0)))).2 ≤ 0 then
        ⟨0,
          some { c with state := some (E.rubberband_available (E.rubberband_process s
            (c.inPtrs.map (deref c)) inputFrames.toNat (decide (final ≠ 0)))).1 },
          tr ++ [Event.rubberband_process c.inPtrs inputFrames.toNat (decide (final ≠ 0))] ++
            [Event.rubberband_available]⟩
      else
        ⟨toInt (E.rubberband_retrieve (E.rubberband_available (E.rubberband_process s
            (c.inPtrs.map (deref c)) inputFrames.toNat (decide (final ≠ 0)))).1
            (min (E.rubberband_available (E.rubberband_process s (c.inPtrs.map (deref c))
              inputFrames.toNat (decide (final ≠ 0)))).2 8192).toNat).2.2,
          some (writeThrough
            { c with state := some (E.rubberband_retrieve (E.rubberband_available
              (E.rubberband_process s (c.inPtrs.map (deref c)) inputFrames.toNat
                (decide (final ≠ 0)))).1
              (min (E.rubberband_available (E.rubberband_process s (c.inPtrs.map (deref c))
                inputFrames.toNat (decide (final ≠ 0)))).2 8192).toNat).1 }
            c.outPtrs
            (E.rubberband_retrieve (E.rubberband_available (E.rubberband_process s
              (c.inPtrs.map (deref c)) inputFrames.toNat (decide (final ≠ 0)))).1
              (min (E.rubberband_available (E.rubberband_process s (c.inPtrs.map (deref c))
                inputFrames.toNat (decide (final ≠ 0)))).2 8192).toNat).2.1
            (min (E.rubberband_available (E.rubberband_process s (c.inPtrs.map (deref c))
              inputFrames.toNat (decide (final ≠ 0)))).2 8192).toNat),
          tr ++ [Event.rubberband_process c.inPtrs inputFrames.toNat (decide (final ≠ 0))] ++
            [Event.rubberband_available] ++
            [Event.rubberband_retrieve c.outPtrs
              (min (E.rubberband_available (E.rubberband_process s (c.inPtrs.map (deref c))
                inputFrames.toNat (decide (final ≠ 0)))).2 8192).toNat]⟩ := by
  have hu : toUInt inputFrames = inputFrames.toNat := toUInt_toNat h0 (by omega)
  have hlt : ¬ inputFrames < 0 := by omega
  have hgt : ¬ inputFrames.toNat > c.chunkFrames := by rw [hc.chunkFrames]; omega
  simp only [rb_process, hs, if_neg hlt, hu, if_neg hgt, hc.maxOutputFrames]
  by_cases ha : (E.rubberband_available (E.rubberband_process s (c.inPtrs.map (deref c))
      inputFrames.toNat (decide (final ≠ 0)))).2 ≤ 0
  · rw [if_pos ha, if_pos ha]
  · rw [if_neg ha, if_neg ha, (clamp_count _ (by omega)).1]

theorem rb_create_demo_returns :
    (rb_create wasm32Allocator 0 demoEngine [] 44100 2).ret = Completion.returned := by
  decide

theorem rb_create_demo :
    (rb_create wasm32Allocator 0 demoEngine [] 44100 2).ctx =
      some (createdContext (⟨2, 0⟩ : DemoState) 2) :=
  rb_create_returned wasm32Allocator 0 demoEngine [] 44100 2 (by decide) (by decide) ⟨2, 0⟩
    (by decide) (by decide) rb_create_demo_returns

/-! ## Sample runs -/

/-- A full chunk through `demoEngine`: 16384 frames become available, `rb_process`
asks for 8192 of them and returns 8192. -/
theorem rb_process_demo_clamps :
    (rb_process demoEngine [] (some (createdContext (⟨2, 0⟩ : DemoState) 2)) 1024 0).ret =
        8192 ∧
      (rb_process demoEngine [] (some (createdContext (⟨2, 0⟩ : DemoState) 2)) 1024 0).trace =
        [Event.rubberband_process [some (Loc.input 0), some (Loc.input 1)] 1024 false,
          Event.rubberband_available,
          Event.rubberband_retrieve [some (Loc.output 0), some (Loc.output 1)] 8192] := by
  have key := rb_process_shaped demoEngine [] 2 (createdContext (⟨2, 0⟩ : DemoState) 2)
    (createdContext_shaped _ _) ⟨2, 0⟩ rfl 1024 0 (by decide) (by decide)
  constructor
  · rw [key]
    decide
  · rw [key]
    rfl

/-- An empty chunk through `demoEngine` right after creation: nothing is
available, `rb_process` returns 0 and does not call `rubberband_retrieve`. -/
theorem rb_process_demo_empty :
    (rb_process demoEngine [] (some (createdContext (⟨2, 0⟩ : DemoState) 2)) 0 1).ret = 0 ∧
      (rb_process demoEngine [] (some (createdContext (⟨2, 0⟩ : DemoState) 2)) 0 1).trace =
        [Event.rubberband_process [some (Loc.input 0), some (Loc.input 1)] 0 true,
          Event.rubberband_available] := by
  have key := rb_process_shaped demoEngine [] 2 (createdContext (⟨2, 0⟩ : DemoState) 2)
    (createdContext_shaped _ _) ⟨2, 0⟩ rfl 0 1 (by decide) (by decide)
  constructor
  · rw [key]
    decide
  · rw [key]
    rfl

/-- The trace of a successful `rb_create` on `demoEngine`. -/
theorem rb_create_demo_trace :
    (rb_create wasm32Allocator 0 demoEngine [] 44100 2).trace =
      [Event.new_context, Event.rubberband_new 44100 2 createOptions CFloat.one CFloat.one,
        Event.rubberband_set_max_process_size 1024, Event.rubberband_get_process_size_limit] := by
  decide

/-- The heap after two channels were created from an empty wasm32 heap: the context,
four tables of two entries and two pairs of buffers take 73856 bytes. -/
theorem createBuffers_demo_heap :
    (createBuffers wasm32Allocator 64
      ({ state := some ⟨2, 0⟩, channels := 2, chunkFrames := 1024, maxOutputFrames := 8192,
         inBuffers := [], outBuffers := [], inPtrs := [], outPtrs := [] } :
        RBContext DemoState)).map (fun done => done.1) = some 73856 := by
  decide

/-! ## The claims -/

/-- C3: when `sampleRate <= 0` or `channels <= 0`, `rb_create` returns the null
context without asking the allocator for anything and leaves the trace as it was:
no context was allocated and no engine function, `rubberband_new` included, was
called, so nothing is left allocated. -/
theorem rb_create_rejects_nonpositive {μ σ : Type} (A : Allocator μ) (heap : μ)
    (E : Engine σ) (tr : Trace) (sampleRate channels : Int)
    (h : sampleRate ≤ 0 ∨ channels ≤ 0) :
    rb_create A heap E tr sampleRate channels = ⟨Completion.returned, none, tr⟩ ∧
      (rb_create A heap E tr sampleRate channels).ctx = none ∧
      (rb_create A heap E tr sampleRate channels).trace = tr ∧
      Event.new_context ∉ (rb_create A heap E [] sampleRate channels).trace ∧
      ∀ sr ch opts t p, Event.rubberband_new sr ch opts t p ∉
        (rb_create A heap E [] sampleRate channels).trace := by
  simp [rb_create, if_pos h]

theorem rb_create_rejects_nonpositive_witness :
    ((0 : Int) ≤ 0 ∨ (2 : Int) ≤ 0) ∧
      (rb_create wasm32Allocator 0 demoEngine [Event.rubberband_reset] 0 2 =
          ⟨Completion.returned, none, [Event.rubberband_reset]⟩ ∧
        (rb_create wasm32Allocator 0 demoEngine [Event.rubberband_reset] 0 2).ctx = none ∧
        (rb_create wasm32Allocator 0 demoEngine [Event.rubberband_reset] 0 2).trace =
          [Event.rubberband_reset] ∧
        Event.new_context ∉ (rb_create wasm32Allocator 0 demoEngine [] 0 2).trace ∧
        ∀ sr ch opts t p, Event.rubberband_new sr ch opts t p ∉
          (rb_create wasm32Allocator 0 demoEngine [] 0 2).trace) :=
  ⟨by decide,
    rb_create_rejects_nonpositive wasm32Allocator 0 demoEngine [Event.rubberband_reset] 0 2
      (by decide)⟩

/-- C7: on the null context every bridge function returns its neutral value (0, the
null pointer, or nothing), leaves the null context and leaves the trace as it
was, so it calls no engine function, whatever its other arguments are. -/
theorem null_context_is_noop {σ : Type} (E : Engine σ) (tr : Trace) (a b : Int)
    (scale : CFloat) :
    rb_get_chunk_size tr (none : Option (RBContext σ)) = ⟨0, none, tr⟩ ∧
      rb_get_max_output_size tr (none : Option (RBContext σ)) = ⟨0, none, tr⟩ ∧
      rb_get_start_delay E tr none = ⟨0, none, tr⟩ ∧
      rb_process E tr none a b = ⟨0, none, tr⟩ ∧
      rb_get_input_channel_ptr tr (none : Option (RBContext σ)) a = ⟨none, none, tr⟩ ∧
      rb_get_output_channel_ptr tr (none : Option (RBContext σ)) a = ⟨none, none, tr⟩ ∧
      rb_destroy tr (none : Option (RBContext σ)) = ⟨(), none, tr⟩ ∧
      rb_reset E tr none = ⟨(), none, tr⟩ ∧
      rb_set_pitch_scale E tr none scale = ⟨(), none, tr⟩ ∧
      rb_set_expected_input_duration E tr none a = ⟨(), none, tr⟩ ∧
      rb_study E tr none a b = ⟨(), none, tr⟩ ∧
      rb_calculate_stretch E tr none = ⟨(), none, tr⟩ :=
  ⟨rfl, rfl, rfl, rfl, rfl, rfl, rfl, rfl, rfl, rfl, rfl, rfl⟩

/-- C2: for every context (null or not, whatever its members hold) and every `int`
`inputFrames` with `inputFrames < 0` or `inputFrames` above the chunk capacity,
`rb_process` returns 0 and `rb_study` returns, both leaving the trace as it was
(no engine function called) and the context exactly as it was. -/
theorem out_of_range_is_noop {σ : Type} (E : Engine σ) (tr : Trace)
    (ctx : Option (RBContext σ)) (inputFrames final : Int) (hint : IsInt32 inputFrames)
    (h : inputFrames < 0 ∨ (chunkCapacity ctx : Int) < inputFrames) :
    rb_process E tr ctx inputFrames final = ⟨0, ctx, tr⟩ ∧
      rb_study E tr ctx inputFrames final = ⟨(), ctx, tr⟩ := by
  cases ctx with
  | none => exact ⟨rfl, rfl⟩
  | some c =>
    cases hs : c.state with
    | none => simp only [rb_process, rb_study, hs, and_self]
    | some s =>
      by_cases hneg : inputFrames < 0
      · simp only [rb_process, rb_study, hs, if_pos hneg, and_self]
      · have hcap : (c.chunkFrames : Int) < inputFrames := by
          cases h with
          | inl h => exact absurd h hneg
          | inr h => exact h
        have hu : toUInt inputFrames = inputFrames.toNat :=
          toUInt_toNat (by omega) (by unfold IsInt32 at hint; omega)
        have hgt : toUInt inputFrames > c.chunkFrames := by rw [hu]; omega
        simp only [rb_process, rb_study, hs, if_neg hneg, if_pos hgt, and_self]

theorem out_of_range_is_noop_witness :
    IsInt32 1025 ∧
      ((1025 : Int) < 0 ∨
        (chunkCapacity (some (createdContext (⟨2, 0⟩ : DemoState) 2)) : Int) < 1025) ∧
      (rb_process demoEngine [] (some (createdContext (⟨2, 0⟩ : DemoState) 2)) 1025 0 =
          ⟨0, some (createdContext (⟨2, 0⟩ : DemoState) 2), []⟩ ∧
        rb_study demoEngine [] (some (createdContext (⟨2, 0⟩ : DemoState) 2)) 1025 0 =
          ⟨(), some (createdContext (⟨2, 0⟩ : DemoState) 2), []⟩) :=
  ⟨by decide, Or.inr (by decide),
    out_of_range_is_noop demoEngine [] (some (createdContext (⟨2, 0⟩ : DemoState) 2)) 1025 0
      (by decide) (Or.inr (by decide))⟩

/-- C6: for `scale <= 0` (zero and -1.0 included) `rb_set_pitch_scale` leaves the
trace as it was (the pitch-scale setter of the engine is not called) and the
context, with the engine state and so its pitch ratio, exactly as it was; for
`scale > 0` on a context with a live engine the trace grows by exactly one call
of the setter, with that scale, and only the engine state changes, to what the
setter made of it. -/
theorem set_pitch_scale_guard {σ : Type} (E : Engine σ) (tr : Trace)
    (ctx : Option (RBContext σ)) (scale : CFloat) :
    (scale.leZero = true → rb_set_pitch_scale E tr ctx scale = ⟨(), ctx, tr⟩) ∧
      (scale.gtZero = true → ∀ (c : RBContext σ) (s : σ), ctx = some c → c.state = some s →
        rb_set_pitch_scale E tr ctx scale =
          ⟨(), some { c with state := some (E.rubberband_set_pitch_scale s scale) },
            tr ++ [Event.rubberband_set_pitch_scale scale]⟩) := by
  constructor
  · intro hle
    cases ctx with
    | none => rfl
    | some c =>
      cases hs : c.state with
      | none => simp only [rb_set_pitch_scale, hs]
      | some s => simp only [rb_set_pitch_scale, hs, hle, if_true]
  · intro hgt c s hctx hs
    subst hctx
    have hle : scale.leZero = false := by
      cases scale with
      | nan => rfl
      | inf neg => cases neg <;> simp_all [CFloat.leZero, CFloat.gtZero]
      | finite neg mant exp => cases neg <;> simp_all [CFloat.leZero, CFloat.gtZero]
    simp [rb_set_pitch_scale, hs, hle]

theorem set_pitch_scale_guard_witness :
    ((CFloat.finite true 1 0).leZero = true ∧ CFloat.zero.leZero = true ∧
        rb_set_pitch_scale demoEngine [] (some (createdContext (⟨2, 0⟩ : DemoState) 2))
          (CFloat.finite true 1 0) =
          ⟨(), some (createdContext (⟨2, 0⟩ : DemoState) 2), []⟩) ∧
      ((CFloat.finite false 1 1).gtZero = true ∧
        (createdContext (⟨2, 0⟩ : DemoState) 2).state = some ⟨2, 0⟩ ∧
        rb_set_pitch_scale demoEngine [] (some (createdContext (⟨2, 0⟩ : DemoState) 2))
          (CFloat.finite false 1 1) =
          ⟨(), some { createdContext (⟨2, 0⟩ : DemoState) 2 with
              state := some (demoEngine.rubberband_set_pitch_scale ⟨2, 0⟩
                (CFloat.finite false 1 1)) },
            [] ++ [Event.rubberband_set_pitch_scale (CFloat.finite false 1 1)]⟩) :=
  ⟨⟨rfl, rfl,
      (set_pitch_scale_guard demoEngine [] (some (createdContext (⟨2, 0⟩ : DemoState) 2))
        (CFloat.finite true 1 0)).1 rfl⟩,
    ⟨rfl, rfl,
      (set_pitch_scale_guard demoEngine [] (some (createdContext (⟨2, 0⟩ : DemoState) 2))
        (CFloat.finite false 1 1)).2 rfl _ _ rfl rfl⟩⟩

/-- The chunk size reported for a context reached from one `rb_create` returned. -/
theorem reachable_chunk_size {μ σ : Type} (A : Allocator μ) (heap : μ) (E : Engine σ) (tr : Trace) (sampleRate channels : Int)
    (c : RBContext σ) (hc : (rb_create A heap E tr sampleRate channels).ctx = some c)
    (calls : List Call) (tr1 tr2 : Trace) :
    (rb_get_chunk_size tr2
      (runCalls E calls tr1 (rb_create A heap E tr sampleRate channels).ctx).1).ret = 1024 := by
  obtain ⟨d, hd, -, hshape⟩ := reachable_shaped A heap E tr sampleRate channels c hc calls tr1
  rw [hc, hd]
  simp only [rb_get_chunk_size, hshape.chunkFrames]
  exact toInt_1024

theorem demoEngine_retrieveBounded : RetrieveBounded demoEngine := by
  intro s n
  exact Nat.min_le_right _ _

/-- C1: for a context `rb_create` produced, used by any sequence of calls or none,
and `0 <= inputFrames <= chunk capacity`, the value `rb_process` returns is at
least 0 and at most the maximum output capacity of the context, itself at most
8192, whatever count `rubberband_available` reports, provided that
`rubberband_retrieve` never reports more frames than it was asked for. -/
theorem rb_process_return_bounded {μ σ : Type} (A : Allocator μ) (heap : μ) (E : Engine σ) (hE : RetrieveBounded E)
    (tr tr1 tr2 : Trace) (sampleRate channels : Int) (calls : List Call)
    (inputFrames final : Int) (h0 : 0 ≤ inputFrames)
    (h1 : inputFrames ≤ (rb_get_chunk_size tr2
      (runCalls E calls tr1 (rb_create A heap E tr sampleRate channels).ctx).1).ret) :
    0 ≤ (rb_process E tr2 (runCalls E calls tr1 (rb_create A heap E tr sampleRate channels).ctx).1
        inputFrames final).ret ∧
      (rb_process E tr2 (runCalls E calls tr1 (rb_create A heap E tr sampleRate channels).ctx).1
        inputFrames final).ret ≤
        (rb_get_max_output_size tr2
          (runCalls E calls tr1 (rb_create A heap E tr sampleRate channels).ctx).1).ret ∧
      (rb_get_max_output_size tr2
        (runCalls E calls tr1 (rb_create A heap E tr sampleRate channels).ctx).1).ret ≤ 8192 := by
  cases hcr : (rb_create A heap E tr sampleRate channels).ctx with
  | none =>
    rw [runCalls_none]
    simp [rb_process, rb_get_max_output_size]
  | some c0 =>
    obtain ⟨d, hd, -, hshape⟩ := reachable_shaped A heap E tr sampleRate channels c0 hcr calls tr1
    rw [hcr, hd] at h1
    rw [hd]
    have hcap : (rb_get_chunk_size tr2 (some d)).ret = 1024 := by
      simp only [rb_get_chunk_size, hshape.chunkFrames]
      exact toInt_1024
    have hmax : (rb_get_max_output_size tr2 (some d)).ret = 8192 := by
      simp only [rb_get_max_output_size, hshape.maxOutputFrames]
      exact toInt_8192
    rw [hcap] at h1
    rw [hmax]
    cases hs : d.state with
    | none => exact absurd hs hshape.state
    | some s =>
      rw [rb_process_shaped E tr2 _ d hshape s hs inputFrames final h0 h1]
      split_ifs with ha
      · simp
      · have hk := clamp_count _ (not_le.mp ha)
        have hr := hE (E.rubberband_available (E.rubberband_process s (d.inPtrs.map (deref d))
          inputFrames.toNat (decide (final ≠ 0)))).1
          (min (E.rubberband_available (E.rubberband_process s (d.inPtrs.map (deref d))
            inputFrames.toNat (decide (final ≠ 0)))).2 8192).toNat
        simp only []
        rw [toInt_eq (by omega)]
        omega

theorem rb_process_return_bounded_witness :
    RetrieveBounded demoEngine ∧ (0 : Int) ≤ 512 ∧
      512 ≤ (rb_get_chunk_size []
        (runCalls demoEngine [Call.rb_study 1024 0, Call.rb_process 1024 0] []
          (rb_create wasm32Allocator 0 demoEngine [] 44100 2).ctx).1).ret ∧
      (0 ≤ (rb_process demoEngine []
          (runCalls demoEngine [Call.rb_study 1024 0, Call.rb_process 1024 0] []
            (rb_create wasm32Allocator 0 demoEngine [] 44100 2).ctx).1 512 1).ret ∧
        (rb_process demoEngine []
          (runCalls demoEngine [Call.rb_study 1024 0, Call.rb_process 1024 0] []
            (rb_create wasm32Allocator 0 demoEngine [] 44100 2).ctx).1 512 1).ret ≤
          (rb_get_max_output_size []
            (runCalls demoEngine [Call.rb_study 1024 0, Call.rb_process 1024 0] []
              (rb_create wasm32Allocator 0 demoEngine [] 44100 2).ctx).1).ret ∧
        (rb_get_max_output_size []
          (runCalls demoEngine [Call.rb_study 1024 0, Call.rb_process 1024 0] []
            (rb_create wasm32Allocator 0 demoEngine [] 44100 2).ctx).1).ret ≤ 8192) :=
  ⟨demoEngine_retrieveBounded, by decide,
    by rw [reachable_chunk_size wasm32Allocator 0 demoEngine [] 44100 2 _ rb_create_demo]; decide,
    rb_process_return_bounded wasm32Allocator 0 demoEngine demoEngine_retrieveBounded [] [] [] 44100 2
      [Call.rb_study 1024 0, Call.rb_process 1024 0] 512 1 (by decide)
      (by rw [reachable_chunk_size wasm32Allocator 0 demoEngine [] 44100 2 _ rb_create_demo]; decide)⟩

/-- C8: on a live context and for `0 <= inputFrames <= chunk capacity`, with an
engine whose `rubberband_retrieve` reports no more frames than it was asked for,
`rb_process` calls `rubberband_process` once with the input pointer table, the
count `inputFrames` and the flag `final != 0`, then asks for the available count
`a`.  If `a <= 0` it returns 0, the trace ends there (no `rubberband_retrieve`) and
only the engine state changed, the output buffers being as they were.  Otherwise
it calls `rubberband_retrieve` once with the output pointer table and the count
`min(a, maximum output capacity)` and returns the count `rubberband_retrieve`
reports. -/
theorem rb_process_steps {σ : Type} (E : Engine σ) (hE : RetrieveBounded E) (tr : Trace)
    (n : Nat) (c : RBContext σ) (hc : Shaped n c) (s : σ) (hs : c.state = some s)
    (inputFrames final : Int) (h0 : 0 ≤ inputFrames)
    (h1 : inputFrames ≤ (c.chunkFrames : Int)) :
    let afterProcess := E.rubberband_process s (c.inPtrs.map (deref c)) inputFrames.toNat
      (decide (final ≠ 0))
    let avail := E.rubberband_available afterProcess
    let count := (min avail.2 (c.maxOutputFrames : Int)).toNat
    let got := E.rubberband_retrieve avail.1 count
    (avail.2 ≤ 0 →
      rb_process E tr (some c) inputFrames final =
        ⟨0, some { c with state := some avail.1 },
          tr ++ [Event.rubberband_process c.inPtrs inputFrames.toNat (decide (final ≠ 0)),
            Event.rubberband_available]⟩) ∧
    (0 < avail.2 →
      rb_process E tr (some c) inputFrames final =
        ⟨(got.2.2 : Int),
          some (writeThrough { c with state := some got.1 } c.outPtrs got.2.1 count),
          tr ++ [Event.rubberband_process c.inPtrs inputFrames.toNat (decide (final ≠ 0)),
            Event.rubberband_available, Event.rubberband_retrieve c.outPtrs count]⟩) := by
  have h1k : inputFrames ≤ 1024 := by
    rw [hc.chunkFrames] at h1
    exact_mod_cast h1
  have key := rb_process_shaped E tr n c hc s hs inputFrames final h0 h1k
  have hcount : ∀ a : Int, (min a (c.maxOutputFrames : Int)).toNat = (min a 8192).toNat := by
    intro a
    rw [hc.maxOutputFrames]
    rfl
  simp only [hcount]
  refine ⟨fun ha => ?_, fun ha => ?_⟩
  · rw [key, if_pos ha, List.append_assoc]
    rfl
  · have hk := clamp_count _ ha
    have hr := hE (E.rubberband_available (E.rubberband_process s (c.inPtrs.map (deref c))
      inputFrames.toNat (decide (final ≠ 0)))).1
      (min (E.rubberband_available (E.rubberband_process s (c.inPtrs.map (deref c))
        inputFrames.toNat (decide (final ≠ 0)))).2 8192).toNat
    rw [key, if_neg (not_le.mpr ha), List.append_assoc, List.append_assoc,
      toInt_eq (by omega)]
    rfl

theorem rb_process_steps_witness :
    RetrieveBounded demoEngine ∧ Shaped 2 (createdContext (⟨2, 0⟩ : DemoState) 2) ∧
      (createdContext (⟨2, 0⟩ : DemoState) 2).state = some ⟨2, 0⟩ ∧ (0 : Int) ≤ 1024 ∧
      (1024 : Int) ≤ ((createdContext (⟨2, 0⟩ : DemoState) 2).chunkFrames : Int) ∧
      (let afterProcess := demoEngine.rubberband_process ⟨2, 0⟩
          ((createdContext (⟨2, 0⟩ : DemoState) 2).inPtrs.map
            (deref (createdContext (⟨2, 0⟩ : DemoState) 2))) (1024 : Int).toNat
          (decide ((1 : Int) ≠ 0))
        let avail := demoEngine.rubberband_available afterProcess
        let count :=
          (min avail.2 ((createdContext (⟨2, 0⟩ : DemoState) 2).maxOutputFrames : Int)).toNat
        let got := demoEngine.rubberband_retrieve avail.1 count
        (avail.2 ≤ 0 →
          rb_process demoEngine [] (some (createdContext (⟨2, 0⟩ : DemoState) 2)) 1024 1 =
            ⟨0, some { createdContext (⟨2, 0⟩ : DemoState) 2 with state := some avail.1 },
              [] ++ [Event.rubberband_process (createdContext (⟨2, 0⟩ : DemoState) 2).inPtrs
                (1024 : Int).toNat (decide ((1 : Int) ≠ 0)), Event.rubberband_available]⟩) ∧
        (0 < avail.2 →
          rb_process demoEngine [] (some (createdContext (⟨2, 0⟩ : DemoState) 2)) 1024 1 =
            ⟨(got.2.2 : Int),
              some (writeThrough { createdContext (⟨2, 0⟩ : DemoState) 2 with
                state := some got.1 } (createdContext (⟨2, 0⟩ : DemoState) 2).outPtrs
                got.2.1 count),
              [] ++ [Event.rubberband_process (createdContext (⟨2, 0⟩ : DemoState) 2).inPtrs
                (1024 : Int).toNat (decide ((1 : Int) ≠ 0)), Event.rubberband_available,
                Event.rubberband_retrieve (createdContext (⟨2, 0⟩ : DemoState) 2).outPtrs
                  count]⟩)) :=
  ⟨demoEngine_retrieveBounded, createdContext_shaped _ _, rfl, by decide, by decide,
    rb_process_steps demoEngine demoEngine_retrieveBounded [] 2
      (createdContext (⟨2, 0⟩ : DemoState) 2) (createdContext_shaped _ _) ⟨2, 0⟩ rfl 1024 1
      (by decide) (by decide)⟩

/-- C5: for a context created with channel count `n`, after any sequence of calls
(reset, set pitch scale, set expected duration, study, calculate stretch,
process, the accessors) and for every `int` `channel`: when `0 <= channel < n`,
`rb_get_input_channel_ptr` and `rb_get_output_channel_ptr` return the non-null
address of the input, resp. output, buffer of that channel, the same address as
on the context fresh from `rb_create`; when `channel < 0` or `channel >= n` they
return null. -/
theorem channel_ptr_stable {μ σ : Type} (A : Allocator μ) (heap : μ) (E : Engine σ) (tr tr1 tr2 tr3 : Trace)
    (sampleRate n : Int) (hn : IsInt32 n) (c0 : RBContext σ)
    (hc : (rb_create A heap E tr sampleRate n).ctx = some c0) (calls : List Call) (channel : Int)
    (hch : IsInt32 channel) :
    (0 ≤ channel ∧ channel < n →
      (rb_get_input_channel_ptr tr2 (runCalls E calls tr1 (some c0)).1 channel).ret =
          some (Loc.input channel.toNat) ∧
        (rb_get_output_channel_ptr tr2 (runCalls E calls tr1 (some c0)).1 channel).ret =
          some (Loc.output channel.toNat) ∧
        (∀ d, (runCalls E calls tr1 (some c0)).1 = some d →
          vecData (Loc.input channel.toNat) (d.inBuffers.getD channel.toNat []) =
              some (Loc.input channel.toNat) ∧
            vecData (Loc.output channel.toNat) (d.outBuffers.getD channel.toNat []) =
              some (Loc.output channel.toNat)) ∧
        (rb_get_input_channel_ptr tr2 (runCalls E calls tr1 (some c0)).1 channel).ret =
          (rb_get_input_channel_ptr tr3 (some c0) channel).ret ∧
        (rb_get_output_channel_ptr tr2 (runCalls E calls tr1 (some c0)).1 channel).ret =
          (rb_get_output_channel_ptr tr3 (some c0) channel).ret) ∧
    (channel < 0 ∨ n ≤ channel →
      (rb_get_input_channel_ptr tr2 (runCalls E calls tr1 (some c0)).1 channel).ret = none ∧
        (rb_get_output_channel_ptr tr2 (runCalls E calls tr1 (some c0)).1 channel).ret =
          none) := by
  obtain ⟨-, hpos, hshape0, -, -⟩ := rb_create_shaped A heap E tr sampleRate n c0 hc
  obtain ⟨d, hd, -, hshape⟩ := reachable_shaped A heap E tr sampleRate n c0 hc calls tr1
  unfold IsInt32 at hn hch
  have hnu : toUInt n = n.toNat := toUInt_toNat (by omega) (by omega)
  rw [hnu] at hshape hshape0
  rw [hd]
  constructor
  · rintro ⟨hlo, hhi⟩
    have hcu : toUInt channel = channel.toNat := toUInt_toNat hlo (by omega)
    have hlt : channel.toNat < n.toNat := by omega
    have hcond : ∀ e : RBContext σ, Shaped n.toNat e →
        ¬ (channel < 0 ∨ channel.toNat ≥ e.channels) := by
      intro e he
      rw [he.channels]
      omega
    have hin : ∀ e : RBContext σ, Shaped n.toNat e → ∀ t,
        (rb_get_input_channel_ptr t (some e) channel).ret = some (Loc.input channel.toNat) := by
      intro e he t
      simp only [rb_get_input_channel_ptr, hcu, if_neg (hcond e he)]
      exact he.inPtr _ hlt
    have hout : ∀ e : RBContext σ, Shaped n.toNat e → ∀ t,
        (rb_get_output_channel_ptr t (some e) channel).ret =
          some (Loc.output channel.toNat) := by
      intro e he t
      simp only [rb_get_output_channel_ptr, hcu, if_neg (hcond e he)]
      exact he.outPtr _ hlt
    refine ⟨hin d hshape tr2, hout d hshape tr2, ?_, ?_, ?_⟩
    · intro e he
      have hed := Option.some.inj he
      subst hed
      have hib : channel.toNat < d.inBuffers.length := by rw [hshape.inCount]; exact hlt
      have hob : channel.toNat < d.outBuffers.length := by rw [hshape.outCount]; exact hlt
      have h1 := hshape.inLength _ (List.getElem_mem hib)
      have h2 := hshape.outLength _ (List.getElem_mem hob)
      simp only [vecData, List.getD_eq_getElem?_getD, List.getElem?_eq_getElem hib,
        List.getElem?_eq_getElem hob, Option.getD_some, h1, h2]
      exact ⟨rfl, rfl⟩
    · rw [hin d hshape tr2, hin c0 hshape0 tr3]
    · rw [hout d hshape tr2, hout c0 hshape0 tr3]
  · intro hout
    have hcond : channel < 0 ∨ toUInt channel ≥ d.channels := by
      by_cases hneg : channel < 0
      · exact Or.inl hneg
      · right
        rw [toUInt_toNat (by omega) (by omega), hshape.channels]
        show n.toNat ≤ channel.toNat
        omega
    simp only [rb_get_input_channel_ptr, rb_get_output_channel_ptr, if_pos hcond, and_self]

theorem channel_ptr_stable_witness :
    IsInt32 2 ∧ (rb_create wasm32Allocator 0 demoEngine [] 44100 2).ctx =
        some (createdContext (⟨2, 0⟩ : DemoState) 2) ∧ IsInt32 1 ∧
      ((0 : Int) ≤ 1 ∧ (1 : Int) < 2) ∧
      (rb_get_input_channel_ptr []
          (runCalls demoEngine [Call.rb_process 1024 1, Call.rb_reset] []
            (some (createdContext (⟨2, 0⟩ : DemoState) 2))).1 1).ret =
        some (Loc.input (1 : Int).toNat) ∧
      (rb_get_output_channel_ptr []
          (runCalls demoEngine [Call.rb_process 1024 1, Call.rb_reset] []
            (some (createdContext (⟨2, 0⟩ : DemoState) 2))).1 1).ret =
        some (Loc.output (1 : Int).toNat) :=
  ⟨by decide, rb_create_demo, by decide, by decide,
    ((channel_ptr_stable wasm32Allocator 0 demoEngine [] [] [] [] 44100 2 (by decide)
      (createdContext (⟨2, 0⟩ : DemoState) 2) rb_create_demo
      [Call.rb_process 1024 1, Call.rb_reset] 1 (by decide)).1 (by decide)).1,
    ((channel_ptr_stable wasm32Allocator 0 demoEngine [] [] [] [] 44100 2 (by decide)
      (createdContext (⟨2, 0⟩ : DemoState) 2) rb_create_demo
      [Call.rb_process 1024 1, Call.rb_reset] 1 (by decide)).1 (by decide)).2.1⟩

/-- C9: a context `rb_create(sampleRate, channels)` returns has a non-null engine
handle, the channel count `channels`, chunk capacity 1024 and maximum output
capacity 8192, exactly `channels` input buffers, output buffers, input pointers
and output pointers, every input buffer 1024 zeros, every output buffer 8192
zeros, and pointer-table entry `i` is the address of buffer `i`; every call other
than `rb_destroy` keeps a context alive and preserves its channel count, both
capacities, the pointer tables and the number and lengths of its buffers; so every
context reached from the created one has that shape still. -/
theorem shape_invariant {μ σ : Type} (A : Allocator μ) (heap : μ) (E : Engine σ) (tr : Trace) (sampleRate channels : Int)
    (hch : IsInt32 channels) (c : RBContext σ)
    (hc : (rb_create A heap E tr sampleRate channels).ctx = some c) :
    (c.state ≠ none ∧ (c.channels : Int) = channels ∧ c.chunkFrames = 1024 ∧
      c.maxOutputFrames = 8192 ∧ c.inBuffers.length = c.channels ∧
      c.outBuffers.length = c.channels ∧ c.inPtrs.length = c.channels ∧
      c.outPtrs.length = c.channels ∧
      (∀ b ∈ c.inBuffers, b = List.replicate 1024 CFloat.zero) ∧
      (∀ b ∈ c.outBuffers, b = List.replicate 8192 CFloat.zero) ∧
      (∀ i, i < c.channels →
        c.inPtrs.getD i none = some (Loc.input i) ∧
        c.inPtrs.getD i none = vecData (Loc.input i) (c.inBuffers.getD i []) ∧
        c.outPtrs.getD i none = some (Loc.output i) ∧
        c.outPtrs.getD i none = vecData (Loc.output i) (c.outBuffers.getD i []))) ∧
    (∀ (call : Call) (d : RBContext σ) (tr1 : Trace),
      ∃ e, (call.run E tr1 (some d)).1 = some e ∧ Preserved d e) ∧
    (∀ (calls : List Call) (tr1 : Trace),
      ∃ d, (runCalls E calls tr1 (some c)).1 = some d ∧ Preserved c d ∧
        Shaped c.channels d) := by
  obtain ⟨-, hpos, hshape, hin, hout⟩ := rb_create_shaped A heap E tr sampleRate channels c hc
  unfold IsInt32 at hch
  have hcu : (toUInt channels : Int) = channels := toUInt_eq (by omega) (by omega)
  have hchan : c.channels = toUInt channels := hshape.channels
  refine ⟨⟨hshape.state, ?_, hshape.chunkFrames, hshape.maxOutputFrames, ?_, ?_, ?_, ?_, hin,
    hout, ?_⟩, fun call d tr1 => run_preserved E call tr1 d, fun calls tr1 => ?_⟩
  · rw [hchan, hcu]
  · rw [hchan]; exact hshape.inCount
  · rw [hchan]; exact hshape.outCount
  · rw [hchan]; exact hshape.inPtrsCount
  · rw [hchan]; exact hshape.outPtrsCount
  · intro i hi
    rw [hchan] at hi
    have hib : i < c.inBuffers.length := by rw [hshape.inCount]; exact hi
    have hob : i < c.outBuffers.length := by rw [hshape.outCount]; exact hi
    have h1 := hshape.inLength _ (List.getElem_mem hib)
    have h2 := hshape.outLength _ (List.getElem_mem hob)
    refine ⟨hshape.inPtr i hi, ?_, hshape.outPtr i hi, ?_⟩
    · rw [hshape.inPtr i hi]
      simp only [vecData, List.getD_eq_getElem?_getD, List.getElem?_eq_getElem hib,
        Option.getD_some, h1]
      rfl
    · rw [hshape.outPtr i hi]
      simp only [vecData, List.getD_eq_getElem?_getD, List.getElem?_eq_getElem hob,
        Option.getD_some, h2]
      rfl
  · rw [hchan]
    exact reachable_shaped A heap E tr sampleRate channels c hc calls tr1

theorem shape_invariant_witness :
    IsInt32 2 ∧
      (rb_create wasm32Allocator 0 demoEngine [] 44100 2).ctx = some (createdContext (⟨2, 0⟩ : DemoState) 2) ∧
      (((createdContext (⟨2, 0⟩ : DemoState) 2).channels : Int) = 2 ∧
        (createdContext (⟨2, 0⟩ : DemoState) 2).inBuffers.length =
          (createdContext (⟨2, 0⟩ : DemoState) 2).channels ∧
        (∀ b ∈ (createdContext (⟨2, 0⟩ : DemoState) 2).outBuffers,
          b = List.replicate 8192 CFloat.zero)) ∧
      (∀ (calls : List Call) (tr1 : Trace),
        ∃ d, (runCalls demoEngine calls tr1
            (some (createdContext (⟨2, 0⟩ : DemoState) 2))).1 = some d ∧
          Preserved (createdContext (⟨2, 0⟩ : DemoState) 2) d ∧
          Shaped (createdContext (⟨2, 0⟩ : DemoState) 2).channels d) :=
  ⟨by decide, rb_create_demo,
    ⟨(shape_invariant wasm32Allocator 0 demoEngine [] 44100 2 (by decide)
        (createdContext (⟨2, 0⟩ : DemoState) 2) rb_create_demo).1.2.1,
      (shape_invariant wasm32Allocator 0 demoEngine [] 44100 2 (by decide)
        (createdContext (⟨2, 0⟩ : DemoState) 2) rb_create_demo).1.2.2.2.2.1,
      (shape_invariant wasm32Allocator 0 demoEngine [] 44100 2 (by decide)
        (createdContext (⟨2, 0⟩ : DemoState) 2) rb_create_demo).1.2.2.2.2.2.2.2.2.2.1⟩,
    (shape_invariant wasm32Allocator 0 demoEngine [] 44100 2 (by decide)
      (createdContext (⟨2, 0⟩ : DemoState) 2) rb_create_demo).2.2⟩

/-- C10: on every context reached from one `rb_create` returned by any sequence of
calls, and for every argument value, each engine call `rb_study` and `rb_process`
add to the trace is within bounds: the frame count given to `rubberband_study`
and `rubberband_process` is at most the length of every input buffer (and of what
every pointer passed points to), and the count given to `rubberband_retrieve` is
at least 1 and at most the length of every output buffer (and of what every
pointer passed points to), whatever count the engine reports as available. -/
theorem no_buffer_overrun {μ σ : Type} (A : Allocator μ) (heap : μ) (E : Engine σ) (tr tr1 tr2 : Trace)
    (sampleRate channels : Int) (c0 : RBContext σ)
    (hc : (rb_create A heap E tr sampleRate channels).ctx = some c0) (calls : List Call)
    (inputFrames final : Int) :
    ∃ d, (runCalls E calls tr1 (some c0)).1 = some d ∧
      (∃ evs, (rb_study E tr2 (some d) inputFrames final).trace = tr2 ++ evs ∧
        ∀ ev ∈ evs, Event.InBounds d ev) ∧
      (∃ evs, (rb_process E tr2 (some d) inputFrames final).trace = tr2 ++ evs ∧
        ∀ ev ∈ evs, Event.InBounds d ev) := by
  obtain ⟨d, hd, -, hshape⟩ := reachable_shaped A heap E tr sampleRate channels c0 hc calls tr1
  refine ⟨d, hd, ?_, ?_⟩
  · cases hs : d.state with
    | none => exact absurd hs hshape.state
    | some s =>
      by_cases hneg : inputFrames < 0
      · exact ⟨[], by simp only [rb_study, hs, if_pos hneg, List.append_nil],
          fun ev hev => absurd hev (List.not_mem_nil ev)⟩
      · by_cases hgt : toUInt inputFrames > d.chunkFrames
        · exact ⟨[], by simp only [rb_study, hs, if_neg hneg, if_pos hgt, List.append_nil],
            fun ev hev => absurd hev (List.not_mem_nil ev)⟩
        · refine ⟨[Event.rubberband_study d.inPtrs (toUInt inputFrames) (decide (final ≠ 0))],
            by simp only [rb_study, hs, if_neg hneg, if_neg hgt], fun ev hev => ?_⟩
          rw [List.mem_singleton] at hev
          subst hev
          rw [hshape.chunkFrames] at hgt
          refine ⟨fun b hb => ?_, fun p hp => ?_⟩
          · rw [hshape.inLength b hb]; omega
          · rw [hshape.deref_inPtrs p hp]; omega
  · cases hs : d.state with
    | none => exact absurd hs hshape.state
    | some s =>
      by_cases hneg : inputFrames < 0
      · exact ⟨[], by simp only [rb_process, hs, if_pos hneg, List.append_nil],
          fun ev hev => absurd hev (List.not_mem_nil ev)⟩
      · by_cases hgt : toUInt inputFrames > d.chunkFrames
        · exact ⟨[], by simp only [rb_process, hs, if_neg hneg, if_pos hgt, List.append_nil],
            fun ev hev => absurd hev (List.not_mem_nil ev)⟩
        · have hgt2 := hgt
          rw [hshape.chunkFrames] at hgt2
          have hproc : Event.InBounds d
              (Event.rubberband_process d.inPtrs (toUInt inputFrames) (decide (final ≠ 0))) := by
            refine ⟨fun b hb => ?_, fun p hp => ?_⟩
            · rw [hshape.inLength b hb]; omega
            · rw [hshape.deref_inPtrs p hp]; omega
          by_cases ha : (E.rubberband_available (E.rubberband_process s
              (d.inPtrs.map (deref d)) (toUInt inputFrames) (decide (final ≠ 0)))).2 ≤ 0
          · refine ⟨[Event.rubberband_process d.inPtrs (toUInt inputFrames)
                (decide (final ≠ 0)), Event.rubberband_available],
              by simp only [rb_process, hs, if_neg hneg, if_neg hgt, if_pos ha,
                List.append_assoc, List.singleton_append], fun ev hev => ?_⟩
            simp only [List.mem_cons, List.mem_singleton, List.not_mem_nil, or_false] at hev
            rcases hev with rfl | rfl
            · exact hproc
            · exact trivial
          · have hk := clamp_count _ (not_le.mp ha)
            refine ⟨[Event.rubberband_process d.inPtrs (toUInt inputFrames)
                (decide (final ≠ 0)), Event.rubberband_available,
                Event.rubberband_retrieve d.outPtrs
                  (toUInt (if (E.rubberband_available (E.rubberband_process s
                    (d.inPtrs.map (deref d)) (toUInt inputFrames) (decide (final ≠ 0)))).2 >
                      toInt 8192 then toInt 8192
                    else (E.rubberband_available (E.rubberband_process s
                      (d.inPtrs.map (deref d)) (toUInt inputFrames)
                      (decide (final ≠ 0)))).2))],
              by simp only [rb_process, hs, if_neg hneg, if_neg hgt, if_neg ha,
                hshape.maxOutputFrames, List.append_assoc, List.singleton_append,
                List.cons_append, List.nil_append],
              fun ev hev => ?_⟩
            simp only [List.mem_cons, List.mem_singleton, List.not_mem_nil, or_false] at hev
            rcases hev with rfl | rfl | rfl
            · exact hproc
            · exact trivial
            · rw [hk.1]
              refine ⟨hk.2.1, fun b hb => ?_, fun p hp => ?_⟩
              · rw [hshape.outLength b hb]; exact hk.2.2
              · rw [hshape.deref_outPtrs p hp]; exact hk.2.2

theorem no_buffer_overrun_witness :
    (rb_create wasm32Allocator 0 demoEngine [] 44100 2).ctx = some (createdContext (⟨2, 0⟩ : DemoState) 2) ∧
      ∃ d, (runCalls demoEngine [Call.rb_process 1024 0, Call.rb_process 1024 0] []
          (some (createdContext (⟨2, 0⟩ : DemoState) 2))).1 = some d ∧
        (∃ evs, (rb_study demoEngine [] (some d) 1024 1).trace = [] ++ evs ∧
          ∀ ev ∈ evs, Event.InBounds d ev) ∧
        (∃ evs, (rb_process demoEngine [] (some d) 1024 1).trace = [] ++ evs ∧
          ∀ ev ∈ evs, Event.InBounds d ev) :=
  ⟨rb_create_demo,
    no_buffer_overrun wasm32Allocator 0 demoEngine [] [] [] 44100 2 (createdContext (⟨2, 0⟩ : DemoState) 2)
      rb_create_demo [Call.rb_process 1024 0, Call.rb_process 1024 0] 1024 1⟩

end RubberbandWasm
